import Mathlib

/-!
Verification development for the `websocket-json-stream` repository.

The central object is `WebSocketJSONStream` (src/websocket-json-stream.ts), a
Node `Duplex` stream wrapping a WebSocket-like transport.  We give a shallow
embedding of its event-driven state machine: the wrapped transport's listener
registry and `readyState`, the stream's private fields (`_emittedClose`,
`_ending`, `_pendingQueue`, `_openHandler`, `_openCloseHandler`,
`_closeWsOpenHandler`, `_closeWsCloseHandler`), the `process.nextTick` queue,
and a trace of the externally observable actions (calls to `ws.send`,
`ws.close`, write-completion callbacks, the `'close'` emission).  Event
listeners are JavaScript closures drawn from a fixed set of shapes in the
source, so they are embedded as tags carrying their captured environment; a
fresh nonce models closure identity (removal is by reference).  Event dispatch
follows Node's `EventEmitter.emit`, which iterates over a snapshot of the
listener list taken when the event fires.

Separate sections embed the transport classifier (src/adapters/index.ts), the
SockJS-node and Socket.IO adapters (src/adapters/*.ts), and the default JSON
codec (`jsonSerializer`, which delegates to the ECMAScript builtins
`JSON.stringify` / `JSON.parse`; those builtins are modelled from their
standard semantics).
-/

namespace WsStream

/-- StreamError (src/websocket-json-stream.ts lines 72-75): a JS `Error` with
message and name, optionally carrying `closeCode` / `closeReason`. -/
structure StreamError where
  message : String
  name : String
  closeCode : Option Nat
  closeReason : Option String
deriving DecidableEq, Repr

/-- Error built by `new Error(msg)` with the default name. -/
def plainError (msg : String) : StreamError :=
  ⟨msg, "Error", none, none⟩

/-- The named error raised for writes against a non-open transport
(src lines 230-231 and 264-265). -/
def closedError : StreamError :=
  ⟨"WebSocket CLOSING or CLOSED.", "Error [ERR_CLOSED]", none, none⟩

/-- Error used when serialization yields a non-string (src line 190). -/
def cantSerializeError : StreamError := plainError "Can't serialize the value"

/-- Error used when deserialization yields null/undefined (src line 157). -/
def cantDeserializeError : StreamError := plainError "Can't deserialize the value"

/-- Error used in the defensive default branch of `_closeWebSocket`
(src line 367). -/
def unexpectedStateError (n : Nat) : StreamError :=
  plainError ("Unexpected readyState: " ++ toString n)

/-- The completion callback handed to `_closeWebSocket`: either the `_final`
callback (whose invocation lets the framework emit `'finish'`) or the wrapper
`() => callback(error)` built in `_destroy` (src line 308). -/
inductive CbKind
  | finalCb
  | destroyCb (err : Option StreamError)
deriving DecidableEq, Repr

/-- Observable actions of the engine, in chronological order. -/
inductive Ev
  /-- `this.ws.send(json, callback)` was called (src line 228). -/
  | wsSend (json : String) (cb : Nat)
  /-- `this.ws.close(code, reason)` was called (src line 338). -/
  | wsCloseCall (code : Option Nat) (reason : Option String)
  /-- The completion callback of write number `cb` was invoked with `err`. -/
  | writeCbCalled (cb : Nat) (err : Option StreamError)
  /-- The `_final`/`_destroy` completion callback `k` was invoked with `err`. -/
  | shutdownCb (k : CbKind) (err : Option StreamError)
  /-- `this.emit('close')` (src line 360). -/
  | emitClose
  /-- `this.push(value)` delivered a deserialized message downstream. -/
  | pushed (data : String)
deriving DecidableEq, Repr

/-- Identity of a listener registered on the wrapped WebSocket.  Each closure
shape in the source gets a constructor; `nonce` models closure identity for
the closures that are created repeatedly. -/
inductive LTag
  /-- The long-lived `_messageHandler` (src lines 146-162). -/
  | streamMsg
  /-- The long-lived `_closeHandler` (src lines 164-169). -/
  | streamClose
  /-- The `processQueue` closure of `_send` (src lines 202-220), registered
  as both `_openHandler` and `_openCloseHandler`. -/
  | drain (nonce : Nat)
  /-- The retry closure of `_closeWebSocket` (src lines 321-347), capturing
  the close `code`, `reason` and completion callback. -/
  | closeWs (nonce : Nat) (code : Option Nat) (reason : Option String) (k : CbKind)
deriving DecidableEq, Repr

/-- A deferred `process.nextTick` body (src lines 355-362 and 366-369). -/
inductive TickTask
  | closedTick (k : CbKind)
  | unexpectedTick (k : CbKind) (rs : Nat)
deriving DecidableEq, Repr

/-- State of the wrapped WebSocket-like transport: its `readyState` and its
listener lists for `'message'`, `'open'` and `'close'`, in attachment order. -/
structure WS where
  readyState : Nat
  msgListeners : List LTag
  openListeners : List LTag
  closeListeners : List LTag
deriving DecidableEq, Repr

/-- State of one `WebSocketJSONStream` instance together with its transport,
tick queue and observable trace.  `destroyed`/`ended` model the Node stream
framework flags that make `destroy()` and `_final` fire at most once. -/
structure Engine where
  ws : WS
  emittedClose : Bool
  ending : Bool
  destroyed : Bool
  ended : Bool
  pendingQueue : Option (List (String × Nat))
  openHandler : Option Nat
  openCloseHandler : Option Nat
  closeWsOpenHandler : Option LTag
  closeWsCloseHandler : Option LTag
  nonce : Nat
  writeCtr : Nat
  ticks : List TickTask
  trace : List Ev
deriving DecidableEq, Repr

/-- Append an observable event to the trace. -/
def emitEv (e : Ev) (s : Engine) : Engine :=
  { s with trace := s.trace ++ [e] }

/-- `removeEventListener('message', t)`. -/
def rmMsg (t : LTag) (s : Engine) : Engine :=
  { s with ws := { s.ws with msgListeners := s.ws.msgListeners.erase t } }

/-- `removeEventListener('open', t)`. -/
def rmOpen (t : LTag) (s : Engine) : Engine :=
  { s with ws := { s.ws with openListeners := s.ws.openListeners.erase t } }

/-- `removeEventListener('close', t)`. -/
def rmClose (t : LTag) (s : Engine) : Engine :=
  { s with ws := { s.ws with closeListeners := s.ws.closeListeners.erase t } }

/-- `addEventListener('open', t)`. -/
def addOpen (t : LTag) (s : Engine) : Engine :=
  { s with ws := { s.ws with openListeners := s.ws.openListeners ++ [t] } }

/-- `addEventListener('close', t)`. -/
def addClose (t : LTag) (s : Engine) : Engine :=
  { s with ws := { s.ws with closeListeners := s.ws.closeListeners ++ [t] } }

/-- Set the transport's `readyState`. -/
def setRS (n : Nat) (s : Engine) : Engine :=
  { s with ws := { s.ws with readyState := n } }

/-- `process.nextTick(f)`: enqueue a deferred task. -/
def pushTick (t : TickTask) (s : Engine) : Engine :=
  { s with ticks := s.ticks ++ [t] }

/-- `_cleanupCloseWsHandlers` (src lines 374-383): detach the current
shutdown-retry listeners, if any. -/
def cleanupCloseWs (s : Engine) : Engine :=
  let s1 :=
    match s.closeWsOpenHandler with
    | some t => rmOpen t { s with closeWsOpenHandler := none }
    | none => s
  match s1.closeWsCloseHandler with
  | some t => rmClose t { s1 with closeWsCloseHandler := none }
  | none => s1

/-- `_closeWebSocket(code, reason, callback)` (src lines 311-372): first
detach any previous attempt's listeners, then branch on `readyState`.
CONNECTING attaches one retry closure to both `'open'` and `'close'`; OPEN
attaches a retry closure to `'close'` and calls `ws.close(code, reason)`
(after which a real WebSocket reports CLOSING); CLOSING only attaches the
retry closure; CLOSED removes the long-lived listeners and defers
`callback()` plus the guarded `'close'` emission to the next tick; any other
state defers a callback with an "Unexpected readyState" error. -/
def closeWebSocketBody (code : Option Nat) (reason : Option String) (k : CbKind)
    (s : Engine) : Engine :=
  match s.ws.readyState with
  | 0 =>
    let t := LTag.closeWs s.nonce code reason k
    addClose t (addOpen t { s with
      nonce := s.nonce + 1
      closeWsOpenHandler := some t
      closeWsCloseHandler := some t })
  | 1 =>
    let t := LTag.closeWs s.nonce code reason k
    let s1 := addClose t { s with
      nonce := s.nonce + 1
      closeWsCloseHandler := some t }
    setRS 2 (emitEv (.wsCloseCall code reason) s1)
  | 2 =>
    let t := LTag.closeWs s.nonce code reason k
    addClose t { s with
      nonce := s.nonce + 1
      closeWsCloseHandler := some t }
  | 3 =>
    pushTick (.closedTick k) (rmClose .streamClose (rmMsg .streamMsg s))
  | n + 4 =>
    pushTick (.unexpectedTick k (n + 4)) s

/-- `_closeWebSocket(code, reason, callback)`: detach the previous attempt's
listeners, then run the readyState branch. -/
def closeWebSocket (code : Option Nat) (reason : Option String) (k : CbKind)
    (s0 : Engine) : Engine :=
  closeWebSocketBody code reason k (cleanupCloseWs s0)

/-- `_send(json, callback)` (src lines 197-234): while CONNECTING, lazily
create the single pending queue and its `processQueue` listener pair and
enqueue the entry; when OPEN, hand the payload to `ws.send`; otherwise fail
the write with `closedError`. -/
def sendImpl (json : String) (cb : Nat) (s : Engine) : Engine :=
  match s.ws.readyState with
  | 0 =>
    let s1 :=
      match s.pendingQueue with
      | some _ => s
      | none =>
        let t := LTag.drain s.nonce
        addClose t (addOpen t { s with
          nonce := s.nonce + 1
          pendingQueue := some []
          openHandler := some s.nonce
          openCloseHandler := some s.nonce })
    { s1 with pendingQueue := some ((s1.pendingQueue.getD []) ++ [(json, cb)]) }
  | 1 => emitEv (.wsSend json cb) s
  | _ => emitEv (.writeCbCalled cb (some closedError)) s

/-- Detach the `processQueue` listener pair (`_openHandler` /
`_openCloseHandler`), as done at the start of `processQueue` (src lines
203-211) and in `_destroy` (src lines 252-259). -/
def detachQueueHandlers (s : Engine) : Engine :=
  let s1 :=
    match s.openHandler with
    | some n => rmOpen (.drain n) { s with openHandler := none }
    | none => s
  match s1.openCloseHandler with
  | some n => rmClose (.drain n) { s1 with openCloseHandler := none }
  | none => s1

/-- The `processQueue` closure (src lines 202-220): detach the listener pair,
take the queue, and re-run `_send` for every entry in FIFO order. -/
def processQueue (s : Engine) : Engine :=
  let s2 := detachQueueHandlers s
  match s2.pendingQueue with
  | some q => q.foldl (fun acc (it : String × Nat) => sendImpl it.1 it.2 acc) { s2 with pendingQueue := none }
  | none => s2

/-- Outcome of running the pluggable serializer on the value passed to
`_write`: a string, a thrown error, or a non-string result (for the default
JSON codec, `JSON.stringify(Symbol())` returns `undefined`). -/
inductive WriteOutcome
  | okW (json : String)
  | threwW (e : StreamError)
  | nonStringW
deriving DecidableEq, Repr

/-- `_write(object, _encoding, callback)` (src lines 179-195): serializer
errors and non-string results fail only this write's callback; otherwise the
payload goes to `_send`. -/
def writeImpl (o : WriteOutcome) (s0 : Engine) : Engine :=
  let cb := s0.writeCtr
  let s := { s0 with writeCtr := cb + 1 }
  match o with
  | .threwW e => emitEv (.writeCbCalled cb (some e)) s
  | .nonStringW => emitEv (.writeCbCalled cb (some cantSerializeError)) s
  | .okW json => sendImpl json cb s

/-- Fail every queued pending write with `closedError` and discard the
queue (src lines 260-269). -/
def failPendingQueue (s : Engine) : Engine :=
  match s.pendingQueue with
  | some q =>
    q.foldl (fun acc (it : String × Nat) => emitEv (.writeCbCalled it.2 (some closedError)) acc)
      { s with pendingQueue := none }
  | none => s

/-- `_destroy(error, callback)` (src lines 246-309): detach the long-lived
listeners, detach the pending-queue listener pair, fail every queued write
with `closedError`, detach any in-flight shutdown listeners (src lines
274-281 remove exactly the listeners `_cleanupCloseWsHandlers` removes — the
source inlines that cleanup with a comment noting the equivalence), compute
the close code/reason from the error (1011/"stream error" defaults,
overridden by `error.closeCode`/`error.closeReason`; no error means no
code/reason), and run the shutdown sequencer with `() => callback(error)`. -/
def destroyImpl (err : Option StreamError) (s0 : Engine) : Engine :=
  let s := rmClose .streamClose (rmMsg .streamMsg s0)
  let s2 := detachQueueHandlers s
  let s3 := failPendingQueue s2
  let s5 := cleanupCloseWs s3
  let cr : Option Nat × Option String :=
    match err with
    | some e => (some (e.closeCode.getD 1011), some (e.closeReason.getD "stream error"))
    | none => (none, none)
  closeWebSocket cr.1 cr.2 (.destroyCb err) s5

/-- `stream.destroy(err)`: the Node framework calls `_destroy` only on the
first invocation. -/
def doDestroy (err : Option StreamError) (s : Engine) : Engine :=
  if s.destroyed then s else destroyImpl err { s with destroyed := true }

/-- `_final(callback)` (src lines 236-244): set `_ending` and close the
transport with code 1000 and reason "stream end". -/
def doFinal (s : Engine) : Engine :=
  closeWebSocket (some 1000) (some "stream end") .finalCb { s with ending := true }

/-- Outcome of running the pluggable deserializer on an incoming message:
a value (possibly `null`/`undefined`) or a thrown error. -/
inductive MsgOutcome
  | okM (data : String) (isNull : Bool)
  | threwM (e : StreamError)
deriving DecidableEq, Repr

/-- The `_messageHandler` body (src lines 146-162): a deserializer throw or a
null/undefined result destroys the stream; otherwise the value is pushed. -/
def messageHandlerRun (o : MsgOutcome) (s : Engine) : Engine :=
  match o with
  | .threwM e => doDestroy (some e) s
  | .okM data isNull =>
    if isNull then doDestroy (some cantDeserializeError) s
    else emitEv (.pushed data) s

/-- Behaviour of one `'message'` listener. -/
def runMsgListener (o : MsgOutcome) (s : Engine) (t : LTag) : Engine :=
  match t with
  | .streamMsg => messageHandlerRun o s
  | _ => s

/-- A `'message'` event: dispatch to a snapshot of the message listeners. -/
def fireMessage (o : MsgOutcome) (s : Engine) : Engine :=
  s.ws.msgListeners.foldl (runMsgListener o) s

/-- Behaviour of one `'close'` listener: `_closeHandler` destroys unless
`_ending` (src lines 164-169); `processQueue` drains; the shutdown-retry
closure re-runs `_closeWebSocket` after cleanup (src lines 321-324). -/
def runCloseListener (s : Engine) (t : LTag) : Engine :=
  match t with
  | .streamMsg => s
  | .streamClose => if s.ending then s else doDestroy none s
  | .drain _ => processQueue s
  | .closeWs _ code reason k => closeWebSocket code reason k (cleanupCloseWs s)

/-- A transport `'close'` event: `readyState` becomes CLOSED, then the close
listeners present at dispatch time run in attachment order. -/
def fireClose (s : Engine) : Engine :=
  s.ws.closeListeners.foldl runCloseListener (setRS 3 s)

/-- Behaviour of one `'open'` listener. -/
def runOpenListener (s : Engine) (t : LTag) : Engine :=
  match t with
  | .drain _ => processQueue s
  | .closeWs _ code reason k => closeWebSocket code reason k (cleanupCloseWs s)
  | _ => s

/-- A transport `'open'` event: `readyState` becomes OPEN, then the open
listeners present at dispatch time run in attachment order. -/
def fireOpen (s : Engine) : Engine :=
  s.ws.openListeners.foldl runOpenListener (setRS 1 s)

/-- Run one deferred `process.nextTick` body.  The CLOSED-branch task invokes
the completion callback first (letting `'finish'` surface) and only then
emits `'close'`, guarded by `_emittedClose` (src lines 355-362). -/
def runTickTask (t : TickTask) (s : Engine) : Engine :=
  match t with
  | .closedTick k =>
    let s1 := emitEv (.shutdownCb k none) s
    if s1.emittedClose then s1
    else emitEv .emitClose { s1 with emittedClose := true }
  | .unexpectedTick k rs => emitEv (.shutdownCb k (some (unexpectedStateError rs))) s

/-- External stimuli driving the engine: application calls (`write`, `end`,
`destroy`), transport events (`message`, `open`, `close`), and running the
next deferred tick. -/
inductive Cmd
  | write (o : WriteOutcome)
  | message (o : MsgOutcome)
  | endCall
  | destroyCall (err : Option StreamError)
  | fireOpenC
  | fireCloseC
  | tick
deriving DecidableEq, Repr

/-- One step of the model.  `write` is rejected by the Node framework once
the stream is destroyed; `end` triggers `_final` at most once. -/
def step (s : Engine) (c : Cmd) : Engine :=
  match c with
  | .write o => if s.destroyed then s else writeImpl o s
  | .message o => fireMessage o s
  | .endCall => if s.ended || s.destroyed then s else doFinal { s with ended := true }
  | .destroyCall err => doDestroy err s
  | .fireOpenC => fireOpen s
  | .fireCloseC => fireClose s
  | .tick =>
    match s.ticks with
    | [] => s
    | t :: rest => runTickTask t { s with ticks := rest }

/-- State after the constructor (src lines 118-173): the transport is in
state `rs`, with exactly the long-lived `_messageHandler` and `_closeHandler`
attached. -/
def init (rs : Nat) : Engine :=
  { ws := { readyState := rs, msgListeners := [.streamMsg], openListeners := [],
            closeListeners := [.streamClose] }
    emittedClose := false, ending := false, destroyed := false, ended := false
    pendingQueue := none, openHandler := none, openCloseHandler := none
    closeWsOpenHandler := none, closeWsCloseHandler := none
    nonce := 0, writeCtr := 0, ticks := [], trace := [] }

/-- Run the model from the constructed state through a list of stimuli. -/
def run (rs : Nat) (cmds : List Cmd) : Engine :=
  cmds.foldl step (init rs)

/-- Number of `'close'` emissions in a trace. -/
def countClose : List Ev → Nat
  | [] => 0
  | .emitClose :: r => countClose r + 1
  | _ :: r => countClose r

end WsStream

namespace WsStream

/-- Payloads of `Ev.wsSend` appearing in a trace, in order. -/
def sendsOf : List Ev → List String
  | [] => []
  | .wsSend j _ :: r => j :: sendsOf r
  | _ :: r => sendsOf r

/-- Number of shutdown-retry (`closeWs`) listeners in a listener list. -/
def countCloseWs : List LTag → Nat
  | [] => 0
  | .closeWs _ _ _ _ :: r => countCloseWs r + 1
  | _ :: r => countCloseWs r

/-- Queue entries `(payload, write-number)` built from consecutive write
numbers starting at `n`. -/
def tagFrom (n : Nat) : List String → List (String × Nat)
  | [] => []
  | j :: r => (j, n) :: tagFrom (n + 1) r

/-- Trace of `ws.send` calls for queued payloads flushed in FIFO order. -/
def sendTrace (n : Nat) : List String → List Ev
  | [] => []
  | j :: r => .wsSend j n :: sendTrace (n + 1) r

/-- Trace of failed write callbacks when queued payloads are discarded. -/
def failTrace (n : Nat) : List String → List Ev
  | [] => []
  | _ :: r => .writeCbCalled n (some closedError) :: failTrace (n + 1) r

end WsStream

namespace WsAdapters

/-- JavaScript `typeof` result for one property of a connection object
(`'undefined'` when the property is absent). -/
inductive JSType
  | numberT
  | stringT
  | booleanT
  | functionT
  | undefinedT
  | objectT
  | symbolT
deriving DecidableEq, Repr

/-- Structural shape of a candidate connection object: the `typeof` of every
property probed by the three classifiers in src/adapters/index.ts. -/
structure ConnShape where
  readyState : JSType
  write : JSType
  send : JSType
  «on» : JSType
  off : JSType
  close : JSType
  addEventListener : JSType
  removeEventListener : JSType
  id : JSType
  connected : JSType
  emit : JSType
  disconnect : JSType
deriving DecidableEq, Repr

/-- `isSockJSNodeConnection` (src/adapters/index.ts lines 19-34).  `none`
models `null` or a non-object value. -/
def isSockJSNodeConnection (ws : Option ConnShape) : Bool :=
  match ws with
  | none => false
  | some obj =>
    obj.readyState == .numberT &&
    obj.write == .functionT &&
    obj.«on» == .functionT &&
    obj.off == .functionT &&
    obj.close == .functionT &&
    !(obj.send == .functionT) &&
    !(obj.addEventListener == .functionT)

/-- `isSocketIOSocket` (src/adapters/index.ts lines 41-58). -/
def isSocketIOSocket (ws : Option ConnShape) : Bool :=
  match ws with
  | none => false
  | some obj =>
    obj.id == .stringT &&
    obj.connected == .booleanT &&
    obj.emit == .functionT &&
    obj.«on» == .functionT &&
    obj.off == .functionT &&
    obj.disconnect == .functionT &&
    !(obj.readyState == .numberT) &&
    !(obj.send == .functionT) &&
    !(obj.addEventListener == .functionT)

/-- `isWebSocketLike` (src/adapters/index.ts lines 63-75). -/
def isWebSocketLike (ws : Option ConnShape) : Bool :=
  match ws with
  | none => false
  | some obj =>
    obj.readyState == .numberT &&
    obj.send == .functionT &&
    obj.close == .functionT &&
    obj.addEventListener == .functionT &&
    obj.removeEventListener == .functionT

/-- The adapter hint accepted by `adaptWebSocket` (src/adapters/index.ts
line 13). -/
inductive AdapterType
  | wsT
  | sockjsNodeT
  | socketioT
  | autoT
deriving DecidableEq, Repr

/-- Result of `adaptWebSocket`: which adapter was chosen, or which error was
thrown. -/
inductive AdaptResult
  | wsDirect
  | sockjsAdapter
  | socketioAdapter
  | unsupportedTypeErr
deriving DecidableEq, Repr

/-- `adaptWebSocket(ws, adapterType)` (src/adapters/index.ts lines 86-118):
explicit hints adapt unconditionally; `'auto'` probes the three signatures in
order and throws the "Unsupported WebSocket type" error when none matches. -/
def adaptWebSocket (ws : Option ConnShape) (adapterType : AdapterType) : AdaptResult :=
  match adapterType with
  | .wsT => .wsDirect
  | .sockjsNodeT => .sockjsAdapter
  | .socketioT => .socketioAdapter
  | .autoT =>
    if isWebSocketLike ws then .wsDirect
    else if isSockJSNodeConnection ws then .sockjsAdapter
    else if isSocketIOSocket ws then .socketioAdapter
    else .unsupportedTypeErr

/-- Result of a JavaScript call together with the arguments passed to the
adapter-level completion callback, in invocation order: `(.ok ())` when the
call returned normally, `(.error e)` when it threw `e` out of the call. -/
abbrev JsOutcome := Except String Unit × List (Option String)

/-- `SockJSNodeAdapter.send(data, callback)` (src/adapters/sockjs-node-adapter.ts
lines 26-34): `try { this.conn.write(data); callback?.() } catch (error)
{ callback?.(error) }`.  `writeRes` is the behaviour of the underlying
`conn.write` call for this payload; the completion callback is assumed not to
throw, matching its use by the stream engine. -/
def sockjsSend (writeRes : Except String Unit) : JsOutcome :=
  let body : JsOutcome :=
    match writeRes with
    | .ok _ => (.ok (), [none])
    | .error e => (.error e, [])
  match body with
  | (.ok a, log) => (.ok a, log)
  | (.error e, log) => (.ok (), log ++ [some e])

/-- `SocketIOAdapter.send(data, callback)` (src/adapters/socketio-adapter.ts
lines 28-37): `try { this.socket.emit('message', data); callback?.() }
catch (error) { callback?.(error) }`.  `emitRes` is the behaviour of the
underlying `socket.emit` call. -/
def socketioSend (emitRes : Except String Unit) : JsOutcome :=
  let body : JsOutcome :=
    match emitRes with
    | .ok _ => (.ok (), [none])
    | .error e => (.error e, [])
  match body with
  | (.ok a, log) => (.ok a, log)
  | (.error e, log) => (.ok (), log ++ [some e])

/-- Observable calls the Socket.IO adapter makes on the wrapped socket. -/
inductive SocketIOCall
  | disconnect (closeUnderlying : Bool)
deriving DecidableEq, Repr

/-- `SocketIOAdapter.close(_code, _reason)` (src/adapters/socketio-adapter.ts
lines 39-43): both arguments are ignored and the adapter always calls
`socket.disconnect(true)`. -/
def socketioClose (_code : Option Nat) (_reason : Option String) : SocketIOCall :=
  .disconnect true

end WsAdapters

namespace WsCodec

/-- Left-brace character, written via its code point. -/
def lbrace : Char := Char.ofNat 123

/-- Right-brace character, written via its code point. -/
def rbrace : Char := Char.ofNat 125

/-- JSON escape sequence for one character inside a string literal, as
produced by `JSON.stringify` (characters needing `\\u` escapes other than
the common control characters are not modelled). -/
def escCharJ (c : Char) : List Char :=
  if c = '"' then ['\\', '"']
  else if c = '\\' then ['\\', '\\']
  else if c = '\n' then ['\\', 'n']
  else if c = '\t' then ['\\', 't']
  else if c = '\r' then ['\\', 'r']
  else [c]

/-- Quote a string as a JSON string literal. -/
def quoteJ (s : String) : String :=
  String.mk ('"' :: s.data.foldr (fun c acc => escCharJ c ++ acc) ['"'])

/-- Join pre-rendered fragments with commas. -/
def joinComma : List String → String
  | [] => ""
  | [s] => s
  | s :: r => s ++ "," ++ joinComma r

/-- Acyclic JSON-representable values (the domain on which the default codec
`jsonSerializer` round-trips).  Numbers are restricted to integers, the only
numeric values used by the repository's round-trip tests. -/
inductive Json
  | num (n : Int)
  | str (s : String)
  | boolJ (b : Bool)
  | nullJ
  | arr (elems : List Json)
  | obj (fields : List (String × Json))

mutual

/-- Model of `JSON.stringify` on acyclic JSON-representable values:
`jsonSerializer.serialize` (src/websocket-json-stream.ts line 22) is
`(value) => JSON.stringify(value)`. -/
def stringifyJ : Json → String
  | .num n => toString n
  | .str s => quoteJ s
  | .boolJ b => cond b "true" "false"
  | .nullJ => "null"
  | .arr es => "[" ++ stringifyElems es ++ "]"
  | .obj fs => String.singleton lbrace ++ stringifyFieldsJ fs ++ String.singleton rbrace

/-- Render array elements, comma-separated. -/
def stringifyElems : List Json → String
  | [] => ""
  | [v] => stringifyJ v
  | v :: r => stringifyJ v ++ "," ++ stringifyElems r

/-- Render object fields, comma-separated. -/
def stringifyFieldsJ : List (String × Json) → String
  | [] => ""
  | [(k, v)] => quoteJ k ++ ":" ++ stringifyJ v
  | (k, v) :: r => quoteJ k ++ ":" ++ stringifyJ v ++ "," ++ stringifyFieldsJ r

end

/-- Inverse of `escCharJ` for the character following a backslash. -/
def unescape (c : Char) : Option Char :=
  if c = '"' then some '"'
  else if c = '\\' then some '\\'
  else if c = 'n' then some '\n'
  else if c = 't' then some '\t'
  else if c = 'r' then some '\r'
  else none

/-- Parse the body of a JSON string literal (after the opening quote) up to
the closing quote. -/
def parseStrChars : List Char → Option (List Char × List Char)
  | [] => none
  | '\\' :: c :: rest =>
    match unescape c with
    | none => none
    | some e =>
      match parseStrChars rest with
      | none => none
      | some (s, r) => some (e :: s, r)
  | '"' :: rest => some ([], rest)
  | c :: rest =>
    match parseStrChars rest with
    | none => none
    | some (s, r) => some (c :: s, r)

/-- Numeric value of a digit string. -/
def digitsVal (cs : List Char) : Nat :=
  cs.foldl (fun a c => a * 10 + (c.toNat - 48)) 0

/-- Parse a JSON integer (optional minus sign followed by digits). -/
def parseNum (cs : List Char) : Option (Int × List Char) :=
  match cs with
  | '-' :: rest =>
    let p := rest.span Char.isDigit
    if p.1.isEmpty then none else some (-(digitsVal p.1 : Int), p.2)
  | _ =>
    let p := cs.span Char.isDigit
    if p.1.isEmpty then none else some ((digitsVal p.1 : Int), p.2)

mutual

/-- Model of `JSON.parse` on the whitespace-free output of `JSON.stringify`:
`jsonSerializer.deserialize` (src/websocket-json-stream.ts line 23) is
`(data) => JSON.parse(data)`.  `fuel` bounds nesting depth and is chosen by
`parseJ` to be large enough for its input. -/
def parseVal : Nat → List Char → Option (Json × List Char)
  | 0, _ => none
  | _, [] => none
  | fuel + 1, c :: rest =>
    if c = 'n' then
      match rest with
      | 'u' :: 'l' :: 'l' :: r => some (.nullJ, r)
      | _ => none
    else if c = 't' then
      match rest with
      | 'r' :: 'u' :: 'e' :: r => some (.boolJ true, r)
      | _ => none
    else if c = 'f' then
      match rest with
      | 'a' :: 'l' :: 's' :: 'e' :: r => some (.boolJ false, r)
      | _ => none
    else if c = '"' then
      match parseStrChars rest with
      | none => none
      | some (s, r) => some (.str (String.mk s), r)
    else if c = '[' then
      match rest with
      | ']' :: r => some (.arr [], r)
      | _ =>
        match parseElems fuel rest with
        | none => none
        | some (vs, r) => some (.arr vs, r)
    else if c = lbrace then
      match rest with
      | c2 :: _ =>
        if c2 = rbrace then some (.obj [], rest.tail)
        else
          match parseFields fuel rest with
          | none => none
          | some (fs, r) => some (.obj fs, r)
      | [] => none
    else
      match parseNum (c :: rest) with
      | none => none
      | some (n, r) => some (.num n, r)

/-- Parse one or more comma-separated array elements up to `]`. -/
def parseElems : Nat → List Char → Option (List Json × List Char)
  | 0, _ => none
  | fuel + 1, cs =>
    match parseVal fuel cs with
    | none => none
    | some (v, r) =>
      match r with
      | ',' :: r2 =>
        match parseElems fuel r2 with
        | none => none
        | some (vs, r3) => some (v :: vs, r3)
      | ']' :: r2 => some ([v], r2)
      | _ => none

/-- Parse one or more comma-separated object fields up to the closing brace. -/
def parseFields : Nat → List Char → Option (List (String × Json) × List Char)
  | 0, _ => none
  | fuel + 1, cs =>
    match cs with
    | '"' :: rest =>
      match parseStrChars rest with
      | none => none
      | some (k, r) =>
        match r with
        | ':' :: r2 =>
          match parseVal fuel r2 with
          | none => none
          | some (v, r3) =>
            match r3 with
            | ',' :: r4 =>
              match parseFields fuel r4 with
              | none => none
              | some (fs, r5) => some ((String.mk k, v) :: fs, r5)
            | c3 :: r4 =>
              if c3 = rbrace then some ([(String.mk k, v)], r4) else none
            | [] => none
        | _ => none
    | _ => none

end

/-- Parse a complete JSON document (no trailing characters). -/
def parseJ (s : String) : Option Json :=
  match parseVal (s.length + 1) s.data with
  | some (v, []) => some v
  | _ => none

/-- Primitive JavaScript values. -/
inductive JsPrim
  | numP (n : Int)
  | strP (s : String)
  | boolP (b : Bool)
  | nullP
  | undefP
  | symbolP
deriving DecidableEq, Repr

/-- A JavaScript value: a primitive or a reference to a heap object, so that
cyclic object graphs are representable. -/
inductive JsVal
  | prim (p : JsPrim)
  | ref (addr : Nat)
deriving DecidableEq, Repr

/-- A heap cell: an array or a plain object. -/
inductive JsObj
  | arrO (elems : List JsVal)
  | objO (fields : List (String × JsVal))
deriving DecidableEq, Repr

/-- Result of `JSON.stringify` on a general JavaScript value: `undefined`
(for symbols and `undefined` at the top level), a string, or a thrown
`TypeError`. -/
inductive SerResult
  | undefR
  | strR (s : String)
  | thrownR (msg : String)
deriving DecidableEq, Repr

/-- Whether the serialization attempt threw. -/
def SerResult.isThrown : SerResult → Bool
  | .thrownR _ => true
  | _ => false

/-- Serialization of a primitive per ECMAScript `SerializeJSONProperty`:
symbols and `undefined` yield no JSON text at all (the call returns
`undefined` without throwing). -/
def serPrim : JsPrim → SerResult
  | .numP n => .strR (toString n)
  | .strP s => .strR (quoteJ s)
  | .boolP b => .strR (cond b "true" "false")
  | .nullP => .strR "null"
  | .undefP => .undefR
  | .symbolP => .undefR

mutual

/-- Model of `JSON.stringify` on general JavaScript values (ECMAScript
`SerializeJSONProperty`): `stack` is the set of object addresses currently
being serialized, and revisiting one throws the circular-structure
`TypeError`.  `fuel` bounds the recursion and is chosen large enough by
`stringifyH` for any traversal that does not revisit an address. -/
def serVal (heap : List JsObj) : Nat → List Nat → JsVal → SerResult
  | 0, _, _ => .thrownR "out of fuel"
  | _, _, .prim p => serPrim p
  | fuel + 1, stack, .ref a =>
    if stack.contains a then .thrownR "Converting circular structure to JSON"
    else
      match heap.get? a with
      | none => .thrownR "invalid reference"
      | some (.arrO es) =>
        match serElemsH heap fuel (a :: stack) es with
        | .error m => .thrownR m
        | .ok parts => .strR ("[" ++ joinComma parts ++ "]")
      | some (.objO fs) =>
        match serFieldsH heap fuel (a :: stack) fs with
        | .error m => .thrownR m
        | .ok parts =>
          .strR (String.singleton lbrace ++ joinComma parts ++ String.singleton rbrace)

/-- Array elements: a member serializing to `undefined` renders as "null". -/
def serElemsH (heap : List JsObj) : Nat → List Nat → List JsVal → Except String (List String)
  | _, _, [] => .ok []
  | 0, _, _ => .error "out of fuel"
  | fuel + 1, stack, v :: r =>
    match serVal heap fuel stack v with
    | .thrownR m => .error m
    | .undefR =>
      match serElemsH heap fuel stack r with
      | .error m => .error m
      | .ok rest => .ok ("null" :: rest)
    | .strR sv =>
      match serElemsH heap fuel stack r with
      | .error m => .error m
      | .ok rest => .ok (sv :: rest)

/-- Object fields: a member serializing to `undefined` is omitted. -/
def serFieldsH (heap : List JsObj) : Nat → List Nat → List (String × JsVal) → Except String (List String)
  | _, _, [] => .ok []
  | 0, _, _ => .error "out of fuel"
  | fuel + 1, stack, (k, v) :: r =>
    match serVal heap fuel stack v with
    | .thrownR m => .error m
    | .undefR => serFieldsH heap fuel stack r
    | .strR sv =>
      match serFieldsH heap fuel stack r with
      | .error m => .error m
      | .ok rest => .ok ((quoteJ k ++ ":" ++ sv) :: rest)

end

/-- Number of immediate members of a heap cell. -/
def objSize : JsObj → Nat
  | .arrO es => es.length + 1
  | .objO fs => fs.length + 1

/-- Model of the top-level `JSON.stringify(value)` call made by
`jsonSerializer.serialize` on a general JavaScript value.  The fuel bound
exceeds the length of any traversal that does not revisit an address. -/
def stringifyH (heap : List JsObj) (v : JsVal) : SerResult :=
  serVal heap ((heap.length + 1) * (1 + (heap.map objSize).sum) + 1) [] v

end WsCodec

namespace WsStream

/-- Trace-flag invariant behind the exactly-once `'close'` guarantee: the
number of `'close'` emissions so far is 1 when `_emittedClose` is set and 0
otherwise. -/
def InvC (s : Engine) : Prop :=
  countClose s.trace = cond s.emittedClose 1 0

/-- Engine state while writes are queued against a CONNECTING transport:
queue contents `q`, next write number `ctr`, and the single `processQueue`
listener pair attached with nonce 0. -/
def midState (q : List (String × Nat)) (ctr : Nat) : Engine :=
  { ws := { readyState := 0, msgListeners := [.streamMsg], openListeners := [.drain 0],
            closeListeners := [.streamClose, .drain 0] }
    emittedClose := false, ending := false, destroyed := false, ended := false
    pendingQueue := some q, openHandler := some 0, openCloseHandler := some 0
    closeWsOpenHandler := none, closeWsCloseHandler := none
    nonce := 1, writeCtr := ctr, ticks := [], trace := [] }

/-- Listener list contributed by the `processQueue` handler field. -/
def drainL : Option Nat → List LTag
  | some n => [.drain n]
  | none => []

/-- Listener list contributed by a shutdown-retry handler field. -/
def optL : Option LTag → List LTag
  | some t => [t]
  | none => []

/-- The shutdown-retry handler fields only ever hold `closeWs` closures. -/
def IsCloseWsOpt : Option LTag → Prop
  | none => True
  | some (.closeWs _ _ _ _) => True
  | some _ => False

/-- Structural listener invariant: the transport's listener lists consist
exactly of the listeners the engine's handler fields account for.  The
`'open'` list holds the `processQueue` handler and/or the shutdown-retry
handler; the `'close'` list additionally may hold the long-lived
`_closeHandler`; the `'message'` list holds at most the long-lived
`_messageHandler`.  `processQueue` is registered for `'open'` and `'close'`
as one closure, and a queue exists whenever its handlers do. -/
def InvL0 (s : Engine) : Prop :=
  (s.ws.msgListeners = [] ∨ s.ws.msgListeners = [LTag.streamMsg]) ∧
  IsCloseWsOpt s.closeWsOpenHandler ∧
  IsCloseWsOpt s.closeWsCloseHandler ∧
  s.openHandler = s.openCloseHandler ∧
  (s.closeWsOpenHandler = none ∨ s.closeWsOpenHandler = s.closeWsCloseHandler) ∧
  (s.pendingQueue = none → s.openHandler = none) ∧
  s.ws.openListeners.Perm (drainL s.openHandler ++ optL s.closeWsOpenHandler) ∧
  ∃ b : Bool, s.ws.closeListeners.Perm
    (cond b [LTag.streamClose] [] ++ drainL s.openCloseHandler ++ optL s.closeWsCloseHandler)

/-- Full listener invariant: once destroyed, the long-lived handlers are
gone for good. -/
def InvL (s : Engine) : Prop :=
  InvL0 s ∧
  (s.destroyed = true →
    s.ws.msgListeners = [] ∧ LTag.streamClose ∉ s.ws.closeListeners)

end WsStream

namespace WsStream

theorem countClose_append (a b : List Ev) :
    countClose (a ++ b) = countClose a + countClose b := by
  induction a with
  | nil => simp [countClose]
  | cons e r ih => cases e <;> simp [countClose, ih] <;> omega

theorem quietC_foldl {α : Type} (g : Engine → α → Engine)
    (h : ∀ a s, (g s a).emittedClose = s.emittedClose ∧
      countClose (g s a).trace = countClose s.trace) :
    ∀ (l : List α) (s : Engine), (l.foldl g s).emittedClose = s.emittedClose ∧
      countClose (l.foldl g s).trace = countClose s.trace := by
  intro l
  induction l with
  | nil => intro s; exact ⟨rfl, rfl⟩
  | cons a r ih =>
    intro s
    have h1 := h a s
    have h2 := ih (g s a)
    exact ⟨h2.1.trans h1.1, h2.2.trans h1.2⟩

theorem quietC_cleanup (s : Engine) :
    (cleanupCloseWs s).emittedClose = s.emittedClose ∧
    countClose (cleanupCloseWs s).trace = countClose s.trace := by
  cases h1 : s.closeWsOpenHandler <;> cases h2 : s.closeWsCloseHandler <;>
    simp [cleanupCloseWs, h1, h2, rmOpen, rmClose]

theorem quietC_closeWebSocket (c : Option Nat) (r : Option String) (k : CbKind) (s : Engine) :
    (closeWebSocket c r k s).emittedClose = s.emittedClose ∧
    countClose (closeWebSocket c r k s).trace = countClose s.trace := by
  have hc := quietC_cleanup s
  rcases hrs : (cleanupCloseWs s).ws.readyState with _ | _ | _ | _ | n <;>
    simp [closeWebSocket, closeWebSocketBody, hrs, addOpen, addClose, setRS, emitEv, pushTick,
      rmClose, rmMsg, countClose_append, countClose, hc.1, hc.2]

theorem quietC_sendImpl (j : String) (cb : Nat) (s : Engine) :
    (sendImpl j cb s).emittedClose = s.emittedClose ∧
    countClose (sendImpl j cb s).trace = countClose s.trace := by
  rcases hrs : s.ws.readyState with _ | _ | _ | _ | n <;>
    cases hq : s.pendingQueue <;>
    simp [sendImpl, hrs, hq, addOpen, addClose, emitEv, countClose_append, countClose]

theorem quietC_processQueue (s : Engine) :
    (processQueue s).emittedClose = s.emittedClose ∧
    countClose (processQueue s).trace = countClose s.trace := by
  have hf := quietC_foldl (fun acc (it : String × Nat) => sendImpl it.1 it.2 acc)
    (fun a s => quietC_sendImpl a.1 a.2 s)
  cases h1 : s.openHandler <;> cases h2 : s.openCloseHandler <;>
    cases h3 : s.pendingQueue <;>
    simp [processQueue, detachQueueHandlers, h1, h2, h3, rmOpen, rmClose] <;>
    constructor <;> simp [(hf _ _).1, (hf _ _).2]

theorem foldl_emitEv {α : Type} (f : α → Ev) (q : List α) (s : Engine) :
    q.foldl (fun acc it => emitEv (f it) acc) s = { s with trace := s.trace ++ q.map f } := by
  induction q generalizing s with
  | nil => simp [emitEv]
  | cons a r ih =>
    rw [List.foldl_cons, ih]
    simp [emitEv]

theorem quietC_writeImpl (o : WriteOutcome) (s : Engine) :
    (writeImpl o s).emittedClose = s.emittedClose ∧
    countClose (writeImpl o s).trace = countClose s.trace := by
  cases o <;>
    simp [writeImpl, emitEv, countClose_append, countClose, quietC_sendImpl]

theorem countClose_failMap (q : List (String × Nat)) :
    countClose (q.map (fun it => Ev.writeCbCalled it.2 (some closedError))) = 0 := by
  induction q with
  | nil => rfl
  | cons a r ih => simp [countClose, ih]

theorem quietC_destroyImpl (err : Option StreamError) (s : Engine) :
    (destroyImpl err s).emittedClose = s.emittedClose ∧
    countClose (destroyImpl err s).trace = countClose s.trace := by
  cases h1 : s.openHandler <;> cases h2 : s.openCloseHandler <;>
    cases h3 : s.pendingQueue <;> cases h4 : s.closeWsOpenHandler <;>
    cases h5 : s.closeWsCloseHandler <;>
    simp [destroyImpl, detachQueueHandlers, failPendingQueue, cleanupCloseWs,
      h1, h2, h3, h4, h5, rmMsg, rmOpen, rmClose, foldl_emitEv,
      quietC_closeWebSocket, countClose_append, countClose, countClose_failMap]

theorem quietC_doDestroy (err : Option StreamError) (s : Engine) :
    (doDestroy err s).emittedClose = s.emittedClose ∧
    countClose (doDestroy err s).trace = countClose s.trace := by
  by_cases h : s.destroyed <;> simp [doDestroy, h, quietC_destroyImpl]

theorem quietC_doFinal (s : Engine) :
    (doFinal s).emittedClose = s.emittedClose ∧
    countClose (doFinal s).trace = countClose s.trace := by
  simp [doFinal, quietC_closeWebSocket]

theorem quietC_messageHandlerRun (o : MsgOutcome) (s : Engine) :
    (messageHandlerRun o s).emittedClose = s.emittedClose ∧
    countClose (messageHandlerRun o s).trace = countClose s.trace := by
  cases o with
  | threwM e => simp [messageHandlerRun, quietC_doDestroy]
  | okM d isNull =>
    cases isNull <;>
      simp [messageHandlerRun, quietC_doDestroy, emitEv, countClose_append, countClose]

theorem quietC_runMsgListener (o : MsgOutcome) (s : Engine) (t : LTag) :
    (runMsgListener o s t).emittedClose = s.emittedClose ∧
    countClose (runMsgListener o s t).trace = countClose s.trace := by
  cases t <;> simp [runMsgListener, quietC_messageHandlerRun]

theorem quietC_fireMessage (o : MsgOutcome) (s : Engine) :
    (fireMessage o s).emittedClose = s.emittedClose ∧
    countClose (fireMessage o s).trace = countClose s.trace := by
  exact quietC_foldl (runMsgListener o) (fun a s => quietC_runMsgListener o s a)
    s.ws.msgListeners s

theorem quietC_runCloseListener (s : Engine) (t : LTag) :
    (runCloseListener s t).emittedClose = s.emittedClose ∧
    countClose (runCloseListener s t).trace = countClose s.trace := by
  cases t with
  | streamMsg => simp [runCloseListener]
  | streamClose =>
    by_cases h : s.ending <;> simp [runCloseListener, h, quietC_doDestroy]
  | drain n => simp [runCloseListener, quietC_processQueue]
  | closeWs n c r k =>
    have h1 := quietC_cleanup s
    have h2 := quietC_closeWebSocket c r k (cleanupCloseWs s)
    exact ⟨(runCloseListener.eq_def _ _ ▸ h2.1.trans h1.1 : _),
      (runCloseListener.eq_def _ _ ▸ h2.2.trans h1.2 : _)⟩

theorem quietC_fireClose (s : Engine) :
    (fireClose s).emittedClose = s.emittedClose ∧
    countClose (fireClose s).trace = countClose s.trace := by
  have hf := quietC_foldl runCloseListener (fun a s => quietC_runCloseListener s a)
    s.ws.closeListeners (setRS 3 s)
  unfold fireClose
  exact ⟨hf.1, hf.2⟩

theorem quietC_runOpenListener (s : Engine) (t : LTag) :
    (runOpenListener s t).emittedClose = s.emittedClose ∧
    countClose (runOpenListener s t).trace = countClose s.trace := by
  cases t with
  | streamMsg => simp [runOpenListener]
  | streamClose => simp [runOpenListener]
  | drain n => simp [runOpenListener, quietC_processQueue]
  | closeWs n c r k =>
    have h1 := quietC_cleanup s
    have h2 := quietC_closeWebSocket c r k (cleanupCloseWs s)
    exact ⟨(runOpenListener.eq_def _ _ ▸ h2.1.trans h1.1 : _),
      (runOpenListener.eq_def _ _ ▸ h2.2.trans h1.2 : _)⟩

theorem quietC_fireOpen (s : Engine) :
    (fireOpen s).emittedClose = s.emittedClose ∧
    countClose (fireOpen s).trace = countClose s.trace := by
  have hf := quietC_foldl runOpenListener (fun a s => quietC_runOpenListener s a)
    s.ws.openListeners (setRS 1 s)
  unfold fireOpen
  exact ⟨hf.1, hf.2⟩

theorem invC_step (s : Engine) (c : Cmd) (h : InvC s) : InvC (step s c) := by
  cases c with
  | write o =>
    by_cases hd : s.destroyed <;> simp [step, hd]
    · exact h
    · unfold InvC at *
      rw [(quietC_writeImpl o s).1, (quietC_writeImpl o s).2]
      exact h
  | message o =>
    unfold InvC at *
    simp only [step]
    rw [(quietC_fireMessage o s).1, (quietC_fireMessage o s).2]
    exact h
  | endCall =>
    by_cases hd : s.ended || s.destroyed <;> simp [step, hd]
    · exact h
    · unfold InvC at *
      rw [(quietC_doFinal _).1, (quietC_doFinal _).2]
      exact h
  | destroyCall e =>
    unfold InvC at *
    simp only [step]
    rw [(quietC_doDestroy e s).1, (quietC_doDestroy e s).2]
    exact h
  | fireOpenC =>
    unfold InvC at *
    simp only [step]
    rw [(quietC_fireOpen s).1, (quietC_fireOpen s).2]
    exact h
  | fireCloseC =>
    unfold InvC at *
    simp only [step]
    rw [(quietC_fireClose s).1, (quietC_fireClose s).2]
    exact h
  | tick =>
    unfold InvC at *
    cases ht : s.ticks with
    | nil => simpa [step, ht] using h
    | cons t rest =>
      cases t with
      | closedTick k =>
        by_cases he : s.emittedClose <;>
          simp [step, ht, runTickTask, emitEv, he, countClose_append, countClose] <;>
          simp [he, countClose_append, countClose] at h <;>
          omega
      | unexpectedTick k rs =>
        by_cases he : s.emittedClose <;>
          simp [step, ht, runTickTask, emitEv, he, countClose_append, countClose] <;>
          simp [he, countClose_append, countClose] at h <;>
          omega

theorem invC_foldl (cmds : List Cmd) (s : Engine) (h : InvC s) :
    InvC (cmds.foldl step s) := by
  induction cmds generalizing s with
  | nil => exact h
  | cons c r ih => exact ih (step s c) (invC_step s c h)

theorem invC_run (rs : Nat) (cmds : List Cmd) : InvC (run rs cmds) := by
  apply invC_foldl
  unfold InvC init countClose
  rfl

/-- C1: for every Stream Engine instance the externally visible `'close'`
event is emitted exactly once however the termination paths (`end()`,
`destroy()`, `destroy(error)`, remote close) are combined: in every run the
number of `'close'` emissions equals 1 exactly when `_emittedClose` is set
(so it never exceeds 1, every later arrival at the CLOSED branch skipping the
emit), and a run that triggers `end()`, `destroy()` and two remote closes
observes exactly one `'close'`. -/
theorem claim_C1 :
    (∀ (rs : Nat) (cmds : List Cmd),
      countClose (run rs cmds).trace = cond (run rs cmds).emittedClose 1 0 ∧
      countClose (run rs cmds).trace ≤ 1) ∧
    countClose (run 1 [.endCall, .destroyCall none, .fireCloseC, .tick, .tick,
      .fireCloseC, .tick]).trace = 1 := by
  constructor
  · intro rs cmds
    have h := invC_run rs cmds
    unfold InvC at h
    refine ⟨h, ?_⟩
    rw [h]
    cases (run rs cmds).emittedClose <;> simp
  · rfl

/-- C5: in the CLOSED branch of the shutdown sequencer the deferred
completion callback (which lets the stream framework emit `'finish'`) is
invoked strictly before `'close'` is emitted: the deferred task first records
the callback invocation and only then (at most once) the `'close'` emission,
and the end-of-writes run at a closed transport observes exactly
`[finish-enabling callback, close]` in that order. -/
theorem claim_C5 :
    (∀ (s : Engine) (k : CbKind),
      (runTickTask (.closedTick k) s).trace =
        s.trace ++ [.shutdownCb k none] ++ cond s.emittedClose [] [.emitClose]) ∧
    (run 3 [.endCall, .tick]).trace = [.shutdownCb .finalCb none, .emitClose] := by
  constructor
  · intro s k
    by_cases h : s.emittedClose <;> simp [runTickTask, emitEv, h]
  · rfl

theorem cleanup_frame (s : Engine) :
    (cleanupCloseWs s).trace = s.trace ∧
    (cleanupCloseWs s).ws.readyState = s.ws.readyState ∧
    (cleanupCloseWs s).ws.msgListeners = s.ws.msgListeners ∧
    (cleanupCloseWs s).pendingQueue = s.pendingQueue ∧
    (cleanupCloseWs s).openHandler = s.openHandler ∧
    (cleanupCloseWs s).openCloseHandler = s.openCloseHandler ∧
    (cleanupCloseWs s).destroyed = s.destroyed ∧
    (cleanupCloseWs s).ticks = s.ticks ∧
    (cleanupCloseWs s).emittedClose = s.emittedClose ∧
    (cleanupCloseWs s).ending = s.ending ∧
    (cleanupCloseWs s).ended = s.ended ∧
    (cleanupCloseWs s).writeCtr = s.writeCtr := by
  cases h1 : s.closeWsOpenHandler <;> cases h2 : s.closeWsCloseHandler <;>
    simp [cleanupCloseWs, h1, h2, rmOpen, rmClose]

theorem closeWebSocket_open_trace (c : Option Nat) (r : Option String) (k : CbKind)
    (s : Engine) (h : s.ws.readyState = 1) :
    (closeWebSocket c r k s).trace = s.trace ++ [.wsCloseCall c r] := by
  simp [closeWebSocket, closeWebSocketBody, cleanup_frame, h, addClose, setRS, emitEv]

theorem closeWebSocket_destroyed (c : Option Nat) (r : Option String) (k : CbKind)
    (s : Engine) : (closeWebSocket c r k s).destroyed = s.destroyed := by
  rcases hrs : (cleanupCloseWs s).ws.readyState with _ | _ | _ | _ | n <;>
    simp [closeWebSocket, closeWebSocketBody, hrs, cleanup_frame, addOpen, addClose,
      setRS, emitEv, pushTick, rmClose, rmMsg]

theorem closeWebSocket_closed_ticks (c : Option Nat) (r : Option String) (k : CbKind)
    (s : Engine) (h : s.ws.readyState = 3) :
    (closeWebSocket c r k s).ticks = s.ticks ++ [.closedTick k] := by
  simp [closeWebSocket, closeWebSocketBody, cleanup_frame, h, pushTick, rmClose, rmMsg]

theorem destroyImpl_trace_open (e : Option StreamError) (s : Engine)
    (h1 : s.ws.readyState = 1) (h2 : s.pendingQueue = none) :
    (destroyImpl e s).trace = s.trace ++
      [.wsCloseCall (e.map (fun x => x.closeCode.getD 1011))
        (e.map (fun x => x.closeReason.getD "stream error"))] := by
  cases ha : s.openHandler <;> cases hb : s.openCloseHandler <;>
    cases hc : s.closeWsOpenHandler <;> cases hd : s.closeWsCloseHandler <;>
    cases e <;>
    simp [destroyImpl, detachQueueHandlers, failPendingQueue, cleanupCloseWs,
      ha, hb, hc, hd, h2, rmMsg, rmOpen, rmClose,
      closeWebSocket_open_trace, h1]

theorem destroyImpl_frame (e : Option StreamError) (s : Engine) :
    (destroyImpl e s).destroyed = s.destroyed ∧
    (destroyImpl e s).ws.readyState = s.ws.readyState ∨ True := by
  exact Or.inr trivial

theorem destroyImpl_destroyed (e : Option StreamError) (s : Engine) :
    (destroyImpl e s).destroyed = s.destroyed := by
  cases ha : s.openHandler <;> cases hb : s.openCloseHandler <;>
    cases hq : s.pendingQueue <;>
    cases hc : s.closeWsOpenHandler <;> cases hd : s.closeWsCloseHandler <;>
    simp [destroyImpl, detachQueueHandlers, failPendingQueue, cleanupCloseWs,
      ha, hb, hq, hc, hd, rmMsg, rmOpen, rmClose, foldl_emitEv,
      closeWebSocket_destroyed]

theorem destroyImpl_closed_ticks (e : Option StreamError) (s : Engine)
    (h1 : s.ws.readyState = 3) :
    (destroyImpl e s).ticks = s.ticks ++ [.closedTick (.destroyCb e)] := by
  cases ha : s.openHandler <;> cases hb : s.openCloseHandler <;>
    cases hq : s.pendingQueue <;>
    cases hc : s.closeWsOpenHandler <;> cases hd : s.closeWsCloseHandler <;>
    simp [destroyImpl, detachQueueHandlers, failPendingQueue, cleanupCloseWs,
      ha, hb, hq, hc, hd, rmMsg, rmOpen, rmClose, foldl_emitEv,
      closeWebSocket_closed_ticks, h1]

/-- C4: close code/reason fidelity at an OPEN transport: `end()` closes the
connection with code 1000 and reason "stream end"; `destroy()` with no error
closes with no code and no reason (the no-code closure a peer reports as
1005/""); `destroy(error)` with `closeCode`/`closeReason` on the error closes
with exactly those values; `destroy(error)` with a plain error closes with
1011/"stream error". -/
theorem claim_C4 :
    (∀ s : Engine, s.ws.readyState = 1 → s.ended = false → s.destroyed = false →
      (step s .endCall).trace = s.trace ++ [.wsCloseCall (some 1000) (some "stream end")]) ∧
    (∀ s : Engine, s.ws.readyState = 1 → s.destroyed = false → s.pendingQueue = none →
      (step s (.destroyCall none)).trace = s.trace ++ [.wsCloseCall none none]) ∧
    (∀ (s : Engine) (m nm : String) (c : Nat) (r : String),
      s.ws.readyState = 1 → s.destroyed = false → s.pendingQueue = none →
      (step s (.destroyCall (some ⟨m, nm, some c, some r⟩))).trace =
        s.trace ++ [.wsCloseCall (some c) (some r)]) ∧
    (∀ (s : Engine) (m nm : String),
      s.ws.readyState = 1 → s.destroyed = false → s.pendingQueue = none →
      (step s (.destroyCall (some ⟨m, nm, none, none⟩))).trace =
        s.trace ++ [.wsCloseCall (some 1011) (some "stream error")]) := by
  refine ⟨?_, ?_, ?_, ?_⟩
  · intro s h1 h2 h3
    simp [step, h2, h3, doFinal]
    rw [closeWebSocket_open_trace] <;> simp [h1]
  · intro s h1 h2 h3
    simp only [step, doDestroy, h2, Bool.false_eq_true, if_false]
    rw [destroyImpl_trace_open] <;> simp [h1, h3]
  · intro s m nm c r h1 h2 h3
    simp only [step, doDestroy, h2, Bool.false_eq_true, if_false]
    rw [destroyImpl_trace_open] <;> simp [h1, h3]
  · intro s m nm h1 h2 h3
    simp only [step, doDestroy, h2, Bool.false_eq_true, if_false]
    rw [destroyImpl_trace_open] <;> simp [h1, h3]

/-- C4 witness: the four close-code rules observed concretely from a freshly
constructed stream on an OPEN transport. -/
theorem claim_C4_witness :
    (step (init 1) .endCall).trace = [.wsCloseCall (some 1000) (some "stream end")] ∧
    (step (init 1) (.destroyCall none)).trace = [.wsCloseCall none none] ∧
    (step (init 1) (.destroyCall (some ⟨"boom", "Error", some 4000, some "custom"⟩))).trace =
      [.wsCloseCall (some 4000) (some "custom")] ∧
    (step (init 1) (.destroyCall (some ⟨"boom", "Error", none, none⟩))).trace =
      [.wsCloseCall (some 1011) (some "stream error")] := by
  refine ⟨?_, ?_, ?_, ?_⟩
  · simpa using claim_C4.1 (init 1) rfl rfl rfl
  · simpa using claim_C4.2.1 (init 1) rfl rfl rfl
  · simpa using claim_C4.2.2.1 (init 1) "boom" "Error" 4000 "custom" rfl rfl rfl
  · simpa using claim_C4.2.2.2 (init 1) "boom" "Error" rfl rfl rfl

/-- C6: error-propagation policy.  A write whose serialization throws, or
yields a non-string, invokes only that write's completion callback with the
error and leaves the rest of the stream state — in particular the `destroyed`
flag — untouched; whereas an incoming message whose deserialization throws,
or yields null/undefined, destroys the stream with the corresponding error
(here at a closed transport, where the scheduled shutdown task records the
error the stream is being destroyed with). -/
theorem claim_C6 :
    (∀ (s : Engine) (e : StreamError), s.destroyed = false →
      step s (.write (.threwW e)) =
        { s with writeCtr := s.writeCtr + 1
                 trace := s.trace ++ [.writeCbCalled s.writeCtr (some e)] }) ∧
    (∀ s : Engine, s.destroyed = false →
      step s (.write .nonStringW) =
        { s with writeCtr := s.writeCtr + 1
                 trace := s.trace ++ [.writeCbCalled s.writeCtr (some cantSerializeError)] }) ∧
    (∀ (s : Engine) (e : StreamError), s.destroyed = false → s.ws.readyState = 3 →
      s.ws.msgListeners = [.streamMsg] →
      (step s (.message (.threwM e))).destroyed = true ∧
      (step s (.message (.threwM e))).ticks =
        s.ticks ++ [.closedTick (.destroyCb (some e))]) ∧
    (∀ (s : Engine) (d : String), s.destroyed = false → s.ws.readyState = 3 →
      s.ws.msgListeners = [.streamMsg] →
      (step s (.message (.okM d true))).destroyed = true ∧
      (step s (.message (.okM d true))).ticks =
        s.ticks ++ [.closedTick (.destroyCb (some cantDeserializeError))]) := by
  refine ⟨?_, ?_, ?_, ?_⟩
  · intro s e hd
    simp [step, hd, writeImpl, emitEv]
  · intro s hd
    simp [step, hd, writeImpl, emitEv]
  · intro s e hd h1 hm
    simp only [step, fireMessage, hm, List.foldl_cons, List.foldl_nil,
      runMsgListener, messageHandlerRun, doDestroy, hd, Bool.false_eq_true, if_false]
    constructor
    · rw [destroyImpl_destroyed]
    · rw [destroyImpl_closed_ticks] <;> simp [h1]
  · intro s d hd h1 hm
    simp only [step, fireMessage, hm, List.foldl_cons, List.foldl_nil,
      runMsgListener, messageHandlerRun, if_true, doDestroy, hd,
      Bool.false_eq_true, if_false]
    constructor
    · rw [destroyImpl_destroyed]
    · rw [destroyImpl_closed_ticks] <;> simp [h1]

/-- C6 witness: the policy observed concretely — failed serialization only
fails write 0 without destroying, failed deserialization destroys with the
deserializer's error. -/
theorem claim_C6_witness :
    step (init 1) (.write (.threwW (plainError "bad"))) =
      { init 1 with writeCtr := 1
                    trace := [.writeCbCalled 0 (some (plainError "bad"))] } ∧
    step (init 1) (.write .nonStringW) =
      { init 1 with writeCtr := 1
                    trace := [.writeCbCalled 0 (some cantSerializeError)] } ∧
    (step (init 3) (.message (.threwM (plainError "bad")))).destroyed = true ∧
    (step (init 3) (.message (.threwM (plainError "bad")))).ticks =
      [.closedTick (.destroyCb (some (plainError "bad")))] ∧
    (step (init 3) (.message (.okM "null" true))).destroyed = true ∧
    (step (init 3) (.message (.okM "null" true))).ticks =
      [.closedTick (.destroyCb (some cantDeserializeError))] := by
  have h1 := claim_C6.1 (init 1) (plainError "bad") rfl
  have h2 := claim_C6.2.1 (init 1) rfl
  have h3 := claim_C6.2.2.1 (init 3) (plainError "bad") rfl rfl rfl
  have h4 := claim_C6.2.2.2 (init 3) "null" rfl rfl rfl
  exact ⟨by simpa using h1, by simpa using h2, h3.1, by simpa using h3.2,
    h4.1, by simpa using h4.2⟩

theorem step_init_write (j : String) :
    step (init 0) (.write (.okW j)) = midState [(j, 0)] 1 := by
  rfl

theorem step_mid_write (j : String) (q : List (String × Nat)) (c : Nat) :
    step (midState q c) (.write (.okW j)) = midState (q ++ [(j, c)]) (c + 1) := by
  rfl

theorem writes_fold (js : List String) (q : List (String × Nat)) (c : Nat) :
    List.foldl step (midState q c) (js.map fun j => Cmd.write (.okW j)) =
      midState (q ++ tagFrom c js) (c + js.length) := by
  induction js generalizing q c with
  | nil => simp [tagFrom]
  | cons j r ih =>
    simp only [List.map_cons, List.foldl_cons, step_mid_write, ih, tagFrom]
    congr 1
    · simp
    · simp [List.length_cons]
      omega

theorem sendImpl_fold_open (q : List (String × Nat)) (s : Engine)
    (h : s.ws.readyState = 1) :
    q.foldl (fun acc (it : String × Nat) => sendImpl it.1 it.2 acc) s =
      { s with trace := s.trace ++ q.map fun it => Ev.wsSend it.1 it.2 } := by
  induction q generalizing s with
  | nil => simp
  | cons a r ih =>
    rw [List.foldl_cons]
    have hs : sendImpl a.1 a.2 s = emitEv (.wsSend a.1 a.2) s := by
      simp [sendImpl, h]
    rw [hs, ih _ (by simp [emitEv, h])]
    simp [emitEv]

theorem open_drains (q : List (String × Nat)) (c : Nat) :
    step (midState q c) .fireOpenC =
      { midState q c with
          ws := { readyState := 1, msgListeners := [.streamMsg], openListeners := [],
                  closeListeners := [.streamClose] }
          pendingQueue := none, openHandler := none, openCloseHandler := none
          trace := q.map fun it => Ev.wsSend it.1 it.2 } := by
  have h0 : step (midState q c) .fireOpenC =
      processQueue (setRS 1 (midState q c)) := by
    simp [step, midState, fireOpen, runOpenListener]
  rw [h0]
  simp only [processQueue, detachQueueHandlers, midState, setRS, rmOpen, rmClose]
  rw [sendImpl_fold_open _ _ (by simp)]
  simp [List.erase]
  rfl

theorem close_fails (q : List (String × Nat)) (c : Nat) :
    (step (midState q c) .fireCloseC).trace =
      q.map fun it => Ev.writeCbCalled it.2 (some closedError) := by
  have h0 : step (midState q c) .fireCloseC =
      runCloseListener (runCloseListener (setRS 3 (midState q c)) .streamClose)
        (.drain 0) := by
    simp [step, midState, fireClose]
  rw [h0]
  simp [runCloseListener, setRS, midState, doDestroy, destroyImpl,
    detachQueueHandlers, failPendingQueue, rmMsg, rmClose, rmOpen, foldl_emitEv,
    cleanupCloseWs, closeWebSocket, closeWebSocketBody, pushTick, processQueue,
    List.erase]

theorem tagFrom_send_map (n : Nat) (js : List String) :
    (tagFrom n js).map (fun it => Ev.wsSend it.1 it.2) = sendTrace n js := by
  induction js generalizing n with
  | nil => rfl
  | cons j r ih => simp [tagFrom, sendTrace, ih]

theorem tagFrom_fail_map (n : Nat) (js : List String) :
    (tagFrom n js).map (fun it => Ev.writeCbCalled it.2 (some closedError)) =
      failTrace n js := by
  induction js generalizing n with
  | nil => rfl
  | cons j r ih => simp [tagFrom, failTrace, ih]

theorem sendsOf_sendTrace (n : Nat) (js : List String) :
    sendsOf (sendTrace n js) = js := by
  induction js generalizing n with
  | nil => rfl
  | cons j r ih => simp [sendTrace, sendsOf, ih]

theorem sendsOf_failTrace (n : Nat) (js : List String) :
    sendsOf (failTrace n js) = [] := by
  induction js generalizing n with
  | nil => rfl
  | cons j r ih => simp [failTrace, sendsOf, ih]

/-- C2: writes issued while the transport is CONNECTING are queued, and once
the transport becomes OPEN every queued payload is handed to `ws.send` in the
original submission order; if the transport reaches CLOSED before opening,
nothing is ever sent and instead each queued write's completion callback
receives the named `closedError` ("WebSocket CLOSING or CLOSED." with name
"Error [ERR_CLOSED]"). -/
theorem claim_C2 (js : List String) :
    (run 0 ((js.map fun j => Cmd.write (.okW j)) ++ [.fireOpenC])).trace =
      sendTrace 0 js ∧
    sendsOf (run 0 ((js.map fun j => Cmd.write (.okW j)) ++ [.fireOpenC])).trace = js ∧
    (run 0 ((js.map fun j => Cmd.write (.okW j)) ++ [.fireCloseC])).trace =
      failTrace 0 js ∧
    sendsOf (run 0 ((js.map fun j => Cmd.write (.okW j)) ++ [.fireCloseC])).trace = [] := by
  cases js with
  | nil => exact ⟨rfl, rfl, rfl, rfl⟩
  | cons j r =>
    have hfold : List.foldl step (init 0) ((j :: r).map fun x => Cmd.write (.okW x)) =
        midState (tagFrom 0 (j :: r)) (r.length + 1) := by
      simp only [List.map_cons, List.foldl_cons, step_init_write]
      rw [writes_fold]
      congr 1
      omega
    have hopen : run 0 ((j :: r).map (fun x => Cmd.write (.okW x)) ++ [.fireOpenC]) =
        step (midState (tagFrom 0 (j :: r)) (r.length + 1)) .fireOpenC := by
      unfold run
      rw [List.foldl_append, hfold]
      rfl
    have hclose : run 0 ((j :: r).map (fun x => Cmd.write (.okW x)) ++ [.fireCloseC]) =
        step (midState (tagFrom 0 (j :: r)) (r.length + 1)) .fireCloseC := by
      unfold run
      rw [List.foldl_append, hfold]
      rfl
    refine ⟨?_, ?_, ?_, ?_⟩
    · rw [hopen, open_drains]
      simpa using tagFrom_send_map 0 (j :: r)
    · rw [hopen, open_drains]
      simp [tagFrom_send_map, sendsOf_sendTrace]
    · rw [hclose, close_fails, tagFrom_fail_map]
    · rw [hclose, close_fails, tagFrom_fail_map, sendsOf_failTrace]

end WsStream

namespace WsAdapters

/-- C7: for both the SockJS-node and Socket.IO adapters and every behaviour
of the wrapped `write`/`emit` call, `send` returns normally (never lets an
exception escape) and invokes the completion callback exactly once — with no
argument when the underlying call succeeds, and with the thrown error when it
fails. -/
theorem claim_C7 :
    (∀ w : Except String Unit,
      (sockjsSend w).1 = .ok () ∧ (sockjsSend w).2.length = 1) ∧
    sockjsSend (.ok ()) = (.ok (), [none]) ∧
    (∀ e : String, sockjsSend (.error e) = (.ok (), [some e])) ∧
    (∀ w : Except String Unit,
      (socketioSend w).1 = .ok () ∧ (socketioSend w).2.length = 1) ∧
    socketioSend (.ok ()) = (.ok (), [none]) ∧
    (∀ e : String, socketioSend (.error e) = (.ok (), [some e])) := by
  refine ⟨?_, rfl, fun e => rfl, ?_, rfl, fun e => rfl⟩
  · intro w
    cases w with
    | ok u => cases u; exact ⟨rfl, rfl⟩
    | error e => exact ⟨rfl, rfl⟩
  · intro w
    cases w with
    | ok u => cases u; exact ⟨rfl, rfl⟩
    | error e => exact ⟨rfl, rfl⟩

/-- C8: the three structural detection predicates are mutually exclusive —
for every candidate object at most one of `isWebSocketLike`,
`isSockJSNodeConnection`, `isSocketIOSocket` holds — and in `'auto'` mode an
object matching none of the three signatures makes `adaptWebSocket` throw
the "Unsupported WebSocket type" error. -/
theorem claim_C8 :
    (∀ o : Option ConnShape,
      cond (isWebSocketLike o) 1 0 + cond (isSockJSNodeConnection o) 1 0 +
        cond (isSocketIOSocket o) 1 0 ≤ 1) ∧
    (∀ o : Option ConnShape,
      isWebSocketLike o = false → isSockJSNodeConnection o = false →
      isSocketIOSocket o = false →
      adaptWebSocket o .autoT = .unsupportedTypeErr) := by
  constructor
  · intro o
    cases o with
    | none => simp [isWebSocketLike, isSockJSNodeConnection, isSocketIOSocket]
    | some obj =>
      by_cases hsend : (obj.send == JSType.functionT) = true
      · have h2 : isSockJSNodeConnection (some obj) = false := by
          simp [isSockJSNodeConnection, hsend]
        have h3 : isSocketIOSocket (some obj) = false := by
          simp [isSocketIOSocket, hsend]
        rw [h2, h3]
        cases isWebSocketLike (some obj) <;> simp
      · have h1 : isWebSocketLike (some obj) = false := by
          simp only [Bool.not_eq_true] at hsend
          simp [isWebSocketLike, hsend]
        by_cases hrs : (obj.readyState == JSType.numberT) = true
        · have h3 : isSocketIOSocket (some obj) = false := by
            simp [isSocketIOSocket, hrs]
          rw [h1, h3]
          cases isSockJSNodeConnection (some obj) <;> simp
        · have h2 : isSockJSNodeConnection (some obj) = false := by
            simp only [Bool.not_eq_true] at hrs
            simp [isSockJSNodeConnection, hrs]
          rw [h1, h2]
          cases isSocketIOSocket (some obj) <;> simp
  · intro o h1 h2 h3
    simp [adaptWebSocket, h1, h2, h3]

/-- C8 witness: the predicate count is at most one on a representative
WebSocket-like shape, and a deliberately ambiguous empty shape (every
property absent) matches no signature, so `'auto'` throws. -/
theorem claim_C8_witness :
    cond (isWebSocketLike (some ⟨.numberT, .undefinedT, .functionT, .functionT,
        .undefinedT, .functionT, .functionT, .functionT, .undefinedT, .undefinedT,
        .undefinedT, .undefinedT⟩)) 1 0 +
      cond (isSockJSNodeConnection (some ⟨.numberT, .undefinedT, .functionT,
        .functionT, .undefinedT, .functionT, .functionT, .functionT, .undefinedT,
        .undefinedT, .undefinedT, .undefinedT⟩)) 1 0 +
      cond (isSocketIOSocket (some ⟨.numberT, .undefinedT, .functionT, .functionT,
        .undefinedT, .functionT, .functionT, .functionT, .undefinedT, .undefinedT,
        .undefinedT, .undefinedT⟩)) 1 0 ≤ 1 ∧
    adaptWebSocket (some ⟨.undefinedT, .undefinedT, .undefinedT, .undefinedT,
      .undefinedT, .undefinedT, .undefinedT, .undefinedT, .undefinedT, .undefinedT,
      .undefinedT, .undefinedT⟩) .autoT = .unsupportedTypeErr := by
  constructor
  · exact claim_C8.1 (some ⟨.numberT, .undefinedT, .functionT, .functionT,
      .undefinedT, .functionT, .functionT, .functionT, .undefinedT, .undefinedT,
      .undefinedT, .undefinedT⟩)
  · exact claim_C8.2 (some ⟨.undefinedT, .undefinedT, .undefinedT, .undefinedT,
      .undefinedT, .undefinedT, .undefinedT, .undefinedT, .undefinedT, .undefinedT,
      .undefinedT, .undefinedT⟩) rfl rfl rfl

/-- C10: `SocketIOAdapter.close` ignores both the close code and the reason
entirely: for every pair of arguments the engine can pass — including
1000/"stream end", 1011/"stream error", the no-code closure, and custom
error-derived codes — the only call made on the Socket.IO transport is
`socket.disconnect(true)`. -/
theorem claim_C10 :
    (∀ (c : Option Nat) (r : Option String), socketioClose c r = .disconnect true) ∧
    socketioClose (some 1000) (some "stream end") = .disconnect true ∧
    socketioClose (some 1011) (some "stream error") = .disconnect true ∧
    socketioClose none none = .disconnect true ∧
    socketioClose (some 4000) (some "custom") = .disconnect true :=
  ⟨fun _ _ => rfl, rfl, rfl, rfl, rfl⟩

end WsAdapters

namespace WsCodec

/-- C9 counterexample: the claim says that for non-serializable values such
as a symbol, `serialize` (i.e. `JSON.stringify`) fails by raising an Error;
in fact `JSON.stringify` applied to a symbol returns normally with
`undefined` — no error is raised. -/
theorem claim_C9_counterexample :
    stringifyH [] (.prim .symbolP) = .undefR ∧
    (stringifyH [] (.prim .symbolP)).isThrown = false :=
  ⟨rfl, rfl⟩

/-- C9 (amended): for the default JSON codec,
`deserialize(serialize(v)) = v` on representative values (object, array,
nested structure, positive and negative numbers, string); serializing a
cyclic structure raises the circular-structure `TypeError`; serializing a
symbol does not raise — it returns `undefined`, a non-string, which the
stream's write path then rejects with the "Can't serialize the value"
Error delivered to that write's callback. -/
theorem claim_C9 :
    parseJ (stringifyJ (.obj [("a", .num 1)])) = some (.obj [("a", .num 1)]) ∧
    parseJ (stringifyJ (.arr [.num 1, .num 2, .num 3])) =
      some (.arr [.num 1, .num 2, .num 3]) ∧
    parseJ (stringifyJ (.obj [("a", .arr [.num 1, .obj [("b", .str "x")]]),
        ("c", .nullJ), ("d", .boolJ true)])) =
      some (.obj [("a", .arr [.num 1, .obj [("b", .str "x")]]),
        ("c", .nullJ), ("d", .boolJ true)]) ∧
    parseJ (stringifyJ (.num 42)) = some (.num 42) ∧
    parseJ (stringifyJ (.num (-7))) = some (.num (-7)) ∧
    parseJ (stringifyJ (.str "hello")) = some (.str "hello") ∧
    stringifyH [.objO [("self", .ref 0)]] (.ref 0) =
      .thrownR "Converting circular structure to JSON" ∧
    stringifyH [] (.prim .symbolP) = .undefR ∧
    (WsStream.writeImpl .nonStringW (WsStream.init 1)).trace =
      [.writeCbCalled 0 (some WsStream.cantSerializeError)] :=
  ⟨rfl, rfl, rfl, rfl, rfl, rfl, rfl, rfl, rfl⟩

end WsCodec

namespace WsStream

theorem perm_pair_cases {α : Type} [DecidableEq α] (l : List α) (a b : α)
    (h : l.Perm [a, b]) : l = [a, b] ∨ l = [b, a] := by
  have hlen : l.length = 2 := by simpa using h.length_eq
  by_cases hab : a = b
  · subst hab
    left
    match l, hlen, h with
    | [x, y], _, h =>
      have hx : x = a := by simpa using h.mem_iff.mp (show x ∈ [x, y] by simp)
      have hy : y = a := by simpa using h.mem_iff.mp (show y ∈ [x, y] by simp)
      simp [hx, hy]
  · match l, hlen, h with
    | [x, y], _, h =>
      have hx : x = a ∨ x = b := by simpa using h.mem_iff.mp (show x ∈ [x, y] by simp)
      rcases hx with rfl | rfl
      · left
        have h2 := h.erase x
        rw [List.erase_cons_head, List.erase_cons_head] at h2
        simp [List.Perm.eq_singleton h2]
      · right
        have h2 := h.erase x
        rw [List.erase_cons_head,
          List.erase_cons_tail (show ¬ a == x by simpa using hab),
          List.erase_cons_head] at h2
        simp [List.Perm.eq_singleton h2]

theorem perm_erase_middle (p q : List LTag) {l : List LTag} {t : LTag}
    (hp : l.Perm (p ++ t :: q)) (hn : t ∉ p) :
    (l.erase t).Perm (p ++ q) := by
  have h2 := hp.erase t
  rwa [List.erase_append_right _ hn, List.erase_cons_head] at h2

theorem isCloseWs_not_mem_drainL {t : LTag} (ht : IsCloseWsOpt (some t))
    (o : Option Nat) : t ∉ drainL o := by
  cases t <;> simp [IsCloseWsOpt] at ht <;> cases o <;> simp [drainL]

theorem isCloseWs_not_mem_condSC {t : LTag} (ht : IsCloseWsOpt (some t))
    (b : Bool) : t ∉ cond b [LTag.streamClose] [] := by
  cases t <;> simp [IsCloseWsOpt] at ht <;> cases b <;> simp

theorem streamClose_not_mem_drainL (o : Option Nat) :
    LTag.streamClose ∉ drainL o := by
  cases o <;> simp [drainL]

theorem streamClose_not_mem_optL {o : Option LTag} (ho : IsCloseWsOpt o) :
    LTag.streamClose ∉ optL o := by
  cases o with
  | none => simp [optL]
  | some t => cases t <;> simp [IsCloseWsOpt] at ho <;> simp [optL]

theorem drain_not_mem_optL {o : Option LTag} (ho : IsCloseWsOpt o) (n : Nat) :
    LTag.drain n ∉ optL o := by
  cases o with
  | none => simp [optL]
  | some t => cases t <;> simp [IsCloseWsOpt] at ho <;> simp [optL]

theorem drain_not_mem_condSC (n : Nat) (b : Bool) :
    LTag.drain n ∉ cond b [LTag.streamClose] [] := by
  cases b <;> simp

theorem not_mem_erase_of_not_mem {t x : LTag} {l : List LTag} (h : t ∉ l) :
    t ∉ l.erase x :=
  fun hmem => h (List.mem_of_mem_erase hmem)

theorem invL_cleanup {s : Engine} (h : InvL s) : InvL (cleanupCloseWs s) := by
  obtain ⟨⟨hmsg, hcwo, hcwc, hoo, hpair, hq, hopen, b, hclose⟩, hdest⟩ := h
  cases h1 : s.closeWsOpenHandler with
  | none =>
    cases h2 : s.closeWsCloseHandler with
    | none =>
      have heq : cleanupCloseWs s = s := by simp [cleanupCloseWs, h1, h2]
      rw [heq]
      exact ⟨⟨hmsg, hcwo, hcwc, hoo, hpair, hq, hopen, b, hclose⟩, hdest⟩
    | some t =>
      have heq : cleanupCloseWs s =
          rmClose t { s with closeWsCloseHandler := none } := by
        simp [cleanupCloseWs, h1, h2]
      rw [heq]
      rw [h1] at hpair
      rw [h2] at hclose hcwc
      refine ⟨⟨?_, ?_, ?_, ?_, ?_, ?_, ?_, b, ?_⟩, ?_⟩ <;>
        simp only [rmClose]
      · exact hmsg
      · exact hcwo
      · trivial
      · exact hoo
      · exact Or.inl h1
      · exact hq
      · exact hopen
      · have hn : t ∉ cond b [LTag.streamClose] [] ++ drainL s.openCloseHandler := by
          simp only [List.mem_append]
          push_neg
          exact ⟨isCloseWs_not_mem_condSC hcwc b, isCloseWs_not_mem_drainL hcwc _⟩
        have h3 : (s.ws.closeListeners.erase t).Perm
            (cond b [LTag.streamClose] [] ++ drainL s.openCloseHandler) := by
          have := perm_erase_middle _ [] (by simpa [optL] using hclose) hn
          simpa using this
        simpa [optL] using h3
      · intro hd
        obtain ⟨hd1, hd2⟩ := hdest hd
        exact ⟨hd1, not_mem_erase_of_not_mem hd2⟩
  | some t =>
    rw [h1] at hopen hpair hcwo
    have hopen2 : (s.ws.openListeners.erase t).Perm (drainL s.openHandler) := by
      have hn : t ∉ drainL s.openHandler := isCloseWs_not_mem_drainL hcwo _
      have := perm_erase_middle _ [] (by simpa [optL] using hopen) hn
      simpa using this
    cases h2 : s.closeWsCloseHandler with
    | none =>
      have heq : cleanupCloseWs s =
          rmOpen t { s with closeWsOpenHandler := none } := by
        simp [cleanupCloseWs, h1, h2, rmOpen]
      rw [heq]
      rw [h2] at hclose
      refine ⟨⟨?_, ?_, ?_, ?_, ?_, ?_, ?_, b, ?_⟩, ?_⟩ <;>
        simp only [rmOpen]
      · exact hmsg
      · trivial
      · exact hcwc
      · exact hoo
      · exact Or.inl trivial
      · exact hq
      · simpa [optL] using hopen2
      · simpa [optL, h2] using hclose
      · intro hd
        exact hdest hd
    | some t' =>
      have heq : cleanupCloseWs s =
          rmClose t' { (rmOpen t { s with closeWsOpenHandler := none }) with
            closeWsCloseHandler := none } := by
        simp [cleanupCloseWs, h1, h2, rmOpen]
      rw [heq]
      rw [h2] at hclose hcwc
      refine ⟨⟨?_, ?_, ?_, ?_, ?_, ?_, ?_, b, ?_⟩, ?_⟩ <;>
        simp only [rmClose, rmOpen]
      · exact hmsg
      · trivial
      · trivial
      · exact hoo
      · exact Or.inl trivial
      · exact hq
      · simpa [optL] using hopen2
      · have hn : t' ∉ cond b [LTag.streamClose] [] ++ drainL s.openCloseHandler := by
          simp only [List.mem_append]
          push_neg
          exact ⟨isCloseWs_not_mem_condSC hcwc b, isCloseWs_not_mem_drainL hcwc _⟩
        have h3 : (s.ws.closeListeners.erase t').Perm
            (cond b [LTag.streamClose] [] ++ drainL s.openCloseHandler) := by
          have := perm_erase_middle _ [] (by simpa [optL] using hclose) hn
          simpa using this
        simpa [optL] using h3
      · intro hd
        obtain ⟨hd1, hd2⟩ := hdest hd
        exact ⟨hd1, not_mem_erase_of_not_mem hd2⟩

theorem cleanup_handlers (s : Engine) :
    (cleanupCloseWs s).closeWsOpenHandler = none ∧
    (cleanupCloseWs s).closeWsCloseHandler = none := by
  cases h1 : s.closeWsOpenHandler <;> cases h2 : s.closeWsCloseHandler <;>
    simp [cleanupCloseWs, h1, h2, rmOpen, rmClose]

theorem invL_closeWebSocketBody {t0 : Engine} (c : Option Nat) (r : Option String)
    (k : CbKind) (h : InvL t0) (h1 : t0.closeWsOpenHandler = none)
    (h2 : t0.closeWsCloseHandler = none) :
    InvL (closeWebSocketBody c r k t0) := by
  obtain ⟨⟨hmsg, _, _, hoo, _, hq, hopen, b, hclose⟩, hdest⟩ := h
  rw [h1] at hopen
  rw [h2] at hclose
  simp only [optL, List.append_nil] at hopen hclose
  rcases hrs : t0.ws.readyState with _ | _ | _ | _ | n
  · have heq : closeWebSocketBody c r k t0 =
        addClose (.closeWs t0.nonce c r k) (addOpen (.closeWs t0.nonce c r k)
          { t0 with nonce := t0.nonce + 1
                    closeWsOpenHandler := some (.closeWs t0.nonce c r k)
                    closeWsCloseHandler := some (.closeWs t0.nonce c r k) }) := by
      simp [closeWebSocketBody, hrs]
    rw [heq]
    refine ⟨⟨?_, ?_, ?_, ?_, ?_, ?_, ?_, b, ?_⟩, ?_⟩ <;>
      simp only [addOpen, addClose]
    · exact hmsg
    · trivial
    · trivial
    · exact hoo
    · exact Or.inr trivial
    · exact hq
    · simpa [optL] using hopen.append_right [LTag.closeWs t0.nonce c r k]
    · simpa [optL, List.append_assoc] using
        hclose.append_right [LTag.closeWs t0.nonce c r k]
    · intro hd
      obtain ⟨hd1, hd2⟩ := hdest hd
      refine ⟨hd1, ?_⟩
      simp only [List.mem_append]
      push_neg
      exact ⟨hd2, by simp⟩
  · have heq : closeWebSocketBody c r k t0 =
        setRS 2 (emitEv (.wsCloseCall c r) (addClose (.closeWs t0.nonce c r k)
          { t0 with nonce := t0.nonce + 1
                    closeWsCloseHandler := some (.closeWs t0.nonce c r k) })) := by
      simp [closeWebSocketBody, hrs]
    rw [heq]
    refine ⟨⟨?_, ?_, ?_, ?_, ?_, ?_, ?_, b, ?_⟩, ?_⟩ <;>
      simp only [addClose, emitEv, setRS]
    · exact hmsg
    · simp [h1, IsCloseWsOpt]
    · trivial
    · exact hoo
    · exact Or.inl h1
    · exact hq
    · simpa [optL, h1] using hopen
    · simpa [optL, List.append_assoc] using
        hclose.append_right [LTag.closeWs t0.nonce c r k]
    · intro hd
      obtain ⟨hd1, hd2⟩ := hdest hd
      refine ⟨hd1, ?_⟩
      simp only [List.mem_append]
      push_neg
      exact ⟨hd2, by simp⟩
  · have heq : closeWebSocketBody c r k t0 =
        addClose (.closeWs t0.nonce c r k)
          { t0 with nonce := t0.nonce + 1
                    closeWsCloseHandler := some (.closeWs t0.nonce c r k) } := by
      simp [closeWebSocketBody, hrs]
    rw [heq]
    refine ⟨⟨?_, ?_, ?_, ?_, ?_, ?_, ?_, b, ?_⟩, ?_⟩ <;>
      simp only [addClose]
    · exact hmsg
    · simp [h1, IsCloseWsOpt]
    · trivial
    · exact hoo
    · exact Or.inl h1
    · exact hq
    · simpa [optL, h1] using hopen
    · simpa [optL, List.append_assoc] using
        hclose.append_right [LTag.closeWs t0.nonce c r k]
    · intro hd
      obtain ⟨hd1, hd2⟩ := hdest hd
      refine ⟨hd1, ?_⟩
      simp only [List.mem_append]
      push_neg
      exact ⟨hd2, by simp⟩
  · have heq : closeWebSocketBody c r k t0 =
        pushTick (.closedTick k) (rmClose .streamClose (rmMsg .streamMsg t0)) := by
      simp [closeWebSocketBody, hrs]
    rw [heq]
    have hmsg2 : (t0.ws.msgListeners.erase LTag.streamMsg) = [] := by
      rcases hmsg with hm | hm <;> simp [hm]
    have hscout : LTag.streamClose ∉ drainL t0.openCloseHandler :=
      streamClose_not_mem_drainL _
    have hclose2 : (t0.ws.closeListeners.erase LTag.streamClose).Perm
        (drainL t0.openCloseHandler) := by
      cases b with
      | false =>
        simp only [cond] at hclose
        have hnm : LTag.streamClose ∉ t0.ws.closeListeners := by
          rw [hclose.mem_iff]
          exact hscout
        rw [List.erase_of_not_mem hnm]
        exact hclose
      | true =>
        simp only [cond] at hclose
        have := perm_erase_middle [] (drainL t0.openCloseHandler)
          (by simpa using hclose) (by simp)
        simpa using this
    have hscfin : LTag.streamClose ∉ t0.ws.closeListeners.erase LTag.streamClose := by
      rw [hclose2.mem_iff]
      exact hscout
    refine ⟨⟨?_, ?_, ?_, ?_, ?_, ?_, ?_, false, ?_⟩, ?_⟩ <;>
      simp only [pushTick, rmClose, rmMsg]
    · exact Or.inl hmsg2
    · simp [h1, IsCloseWsOpt]
    · simp [h2, IsCloseWsOpt]
    · exact hoo
    · exact Or.inl h1
    · exact hq
    · simpa [optL, h1] using hopen
    · simpa [optL, h2] using hclose2
    · intro _
      exact ⟨hmsg2, hscfin⟩
  · have heq : closeWebSocketBody c r k t0 =
        pushTick (.unexpectedTick k (n + 4)) t0 := by
      simp [closeWebSocketBody, hrs]
    rw [heq]
    refine ⟨⟨?_, ?_, ?_, ?_, ?_, ?_, ?_, b, ?_⟩, ?_⟩ <;>
      simp only [pushTick]
    · exact hmsg
    · simp [h1, IsCloseWsOpt]
    · simp [h2, IsCloseWsOpt]
    · exact hoo
    · exact Or.inl h1
    · exact hq
    · simpa [optL, h1] using hopen
    · simpa [optL, h2] using hclose
    · exact hdest

theorem invL_closeWebSocket {s : Engine} (c : Option Nat) (r : Option String)
    (k : CbKind) (h : InvL s) : InvL (closeWebSocket c r k s) :=
  invL_closeWebSocketBody c r k (invL_cleanup h) (cleanup_handlers s).1
    (cleanup_handlers s).2

theorem invL_emitEv {s : Engine} (e : Ev) (h : InvL s) : InvL (emitEv e s) := by
  obtain ⟨⟨hmsg, hcwo, hcwc, hoo, hpair, hq, hopen, b, hclose⟩, hdest⟩ := h
  exact ⟨⟨hmsg, hcwo, hcwc, hoo, hpair, hq, hopen, b, hclose⟩, hdest⟩

theorem detachQueueHandlers_fields (s : Engine) :
    (detachQueueHandlers s).openHandler = none ∧
    (detachQueueHandlers s).openCloseHandler = none ∧
    (detachQueueHandlers s).pendingQueue = s.pendingQueue ∧
    (detachQueueHandlers s).closeWsOpenHandler = s.closeWsOpenHandler ∧
    (detachQueueHandlers s).closeWsCloseHandler = s.closeWsCloseHandler ∧
    (detachQueueHandlers s).ws.msgListeners = s.ws.msgListeners ∧
    (detachQueueHandlers s).ws.readyState = s.ws.readyState ∧
    (detachQueueHandlers s).destroyed = s.destroyed ∧
    (detachQueueHandlers s).trace = s.trace ∧
    (detachQueueHandlers s).ticks = s.ticks := by
  cases h1 : s.openHandler <;> cases h2 : s.openCloseHandler <;>
    simp [detachQueueHandlers, h1, h2, rmOpen, rmClose]

theorem invL_detachQueueHandlers {s : Engine} (h : InvL s)
    (hoo2 : True) : InvL (detachQueueHandlers s) := by
  obtain ⟨⟨hmsg, hcwo, hcwc, hoo, hpair, hq, hopen, b, hclose⟩, hdest⟩ := h
  cases h1 : s.openHandler with
  | none =>
    have h2 : s.openCloseHandler = none := hoo ▸ h1
    have heq : detachQueueHandlers s = s := by
      simp [detachQueueHandlers, h1, h2]
    rw [heq]
    exact ⟨⟨hmsg, hcwo, hcwc, hoo, hpair, hq, hopen, b, hclose⟩, hdest⟩
  | some n =>
    have h2 : s.openCloseHandler = some n := hoo ▸ h1
    have heq : detachQueueHandlers s =
        rmClose (.drain n) { (rmOpen (.drain n) { s with openHandler := none }) with
          openCloseHandler := none } := by
      simp [detachQueueHandlers, h1, h2, rmOpen]
    rw [heq]
    rw [h1] at hopen
    rw [h2] at hclose
    have hopen2 : (s.ws.openListeners.erase (.drain n)).Perm
        (optL s.closeWsOpenHandler) := by
      have := perm_erase_middle [] (optL s.closeWsOpenHandler)
        (by simpa [drainL] using hopen) (by simp)
      simpa using this
    have hclose2 : (s.ws.closeListeners.erase (.drain n)).Perm
        (cond b [LTag.streamClose] [] ++ optL s.closeWsCloseHandler) := by
      have hn : LTag.drain n ∉ cond b [LTag.streamClose] [] :=
        drain_not_mem_condSC n b
      have := perm_erase_middle (cond b [LTag.streamClose] [])
        (optL s.closeWsCloseHandler)
        (by simpa [drainL, List.append_assoc] using hclose) hn
      simpa using this
    refine ⟨⟨hmsg, hcwo, hcwc, rfl, hpair, fun _ => rfl, ?_, b, ?_⟩, ?_⟩
    · simpa [rmClose, rmOpen, drainL] using hopen2
    · simpa [rmClose, rmOpen, drainL] using hclose2
    · intro hd
      obtain ⟨hd1, hd2⟩ := hdest hd
      exact ⟨hd1, not_mem_erase_of_not_mem hd2⟩

theorem failPendingQueue_fields (s : Engine) :
    (failPendingQueue s).pendingQueue = none ∧
    (failPendingQueue s).openHandler = s.openHandler ∧
    (failPendingQueue s).openCloseHandler = s.openCloseHandler ∧
    (failPendingQueue s).closeWsOpenHandler = s.closeWsOpenHandler ∧
    (failPendingQueue s).closeWsCloseHandler = s.closeWsCloseHandler ∧
    (failPendingQueue s).ws = s.ws ∧
    (failPendingQueue s).destroyed = s.destroyed := by
  cases h1 : s.pendingQueue <;> simp [failPendingQueue, h1, foldl_emitEv]

theorem invL_failPendingQueue {s : Engine} (h : InvL s)
    (hoh : s.openHandler = none) : InvL (failPendingQueue s) := by
  obtain ⟨⟨hmsg, hcwo, hcwc, hoo, hpair, hq, hopen, b, hclose⟩, hdest⟩ := h
  cases h1 : s.pendingQueue with
  | none =>
    have heq : failPendingQueue s = s := by simp [failPendingQueue, h1]
    rw [heq]
    exact ⟨⟨hmsg, hcwo, hcwc, hoo, hpair, hq, hopen, b, hclose⟩, hdest⟩
  | some q =>
    have heq : failPendingQueue s =
        { s with pendingQueue := none
                 trace := s.trace ++ q.map fun it =>
                   Ev.writeCbCalled it.2 (some closedError) } := by
      simp [failPendingQueue, h1, foldl_emitEv]
    rw [heq]
    exact ⟨⟨hmsg, hcwo, hcwc, hoo, hpair, fun _ => hoh, hopen, b, hclose⟩, hdest⟩

theorem invL_detachLongLived {s : Engine} (h0 : InvL0 s) :
    InvL (rmClose .streamClose (rmMsg .streamMsg s)) := by
  obtain ⟨hmsg, hcwo, hcwc, hoo, hpair, hq, hopen, b, hclose⟩ := h0
  have hmsg2 : (s.ws.msgListeners.erase LTag.streamMsg) = [] := by
    rcases hmsg with hm | hm <;> simp [hm]
  have hscout : LTag.streamClose ∉
      drainL s.openCloseHandler ++ optL s.closeWsCloseHandler := by
    simp only [List.mem_append]
    push_neg
    exact ⟨streamClose_not_mem_drainL _, streamClose_not_mem_optL hcwc⟩
  have hclose2 : (s.ws.closeListeners.erase LTag.streamClose).Perm
      (drainL s.openCloseHandler ++ optL s.closeWsCloseHandler) := by
    cases b with
    | false =>
      simp only [cond] at hclose
      have hnm : LTag.streamClose ∉ s.ws.closeListeners := by
        rw [hclose.mem_iff]
        simpa using hscout
      rw [List.erase_of_not_mem hnm]
      simpa using hclose
    | true =>
      simp only [cond] at hclose
      have := perm_erase_middle []
        (drainL s.openCloseHandler ++ optL s.closeWsCloseHandler)
        (by simpa using hclose) (by simp)
      simpa using this
  have hscfin : LTag.streamClose ∉
      s.ws.closeListeners.erase LTag.streamClose := by
    rw [hclose2.mem_iff]
    exact hscout
  refine ⟨⟨?_, ?_, ?_, ?_, ?_, ?_, ?_, false, ?_⟩, ?_⟩ <;>
    simp only [rmClose, rmMsg]
  · exact Or.inl hmsg2
  · exact hcwo
  · exact hcwc
  · exact hoo
  · exact hpair
  · exact hq
  · exact hopen
  · simpa using hclose2
  · intro _
    exact ⟨hmsg2, hscfin⟩

theorem invL_destroyImpl {s : Engine} (e : Option StreamError) (h0 : InvL0 s) :
    InvL (destroyImpl e s) := by
  have h1 := invL_detachLongLived h0
  have h2 := invL_detachQueueHandlers h1 trivial
  have h3 := invL_failPendingQueue h2 (detachQueueHandlers_fields _).1
  have h4 := invL_cleanup h3
  exact invL_closeWebSocket _ _ _ h4

theorem invL_doDestroy {s : Engine} (e : Option StreamError) (h : InvL s) :
    InvL (doDestroy e s) := by
  by_cases hd : s.destroyed
  · simpa [doDestroy, hd] using h
  · have heq : doDestroy e s = destroyImpl e { s with destroyed := true } := by
      simp [doDestroy, hd]
    rw [heq]
    apply invL_destroyImpl
    obtain ⟨⟨hmsg, hcwo, hcwc, hoo, hpair, hq, hopen, b, hclose⟩, _⟩ := h
    exact ⟨hmsg, hcwo, hcwc, hoo, hpair, hq, hopen, b, hclose⟩

theorem invL_sendImpl {s : Engine} (j : String) (cb : Nat) (h : InvL s) :
    InvL (sendImpl j cb s) := by
  obtain ⟨⟨hmsg, hcwo, hcwc, hoo, hpair, hq, hopen, b, hclose⟩, hdest⟩ := h
  rcases hrs : s.ws.readyState with _ | _ | _ | _ | n
  · cases hqv : s.pendingQueue with
    | some q =>
      have heq : sendImpl j cb s = { s with pendingQueue := some (q ++ [(j, cb)]) } := by
        simp [sendImpl, hrs, hqv]
      rw [heq]
      exact ⟨⟨hmsg, hcwo, hcwc, hoo, hpair, fun hx => by simp at hx, hopen, b, hclose⟩,
        hdest⟩
    | none =>
      have hoh : s.openHandler = none := hq hqv
      have hoch : s.openCloseHandler = none := hoo ▸ hoh
      have heq : sendImpl j cb s =
          { s with nonce := s.nonce + 1
                   pendingQueue := some [(j, cb)]
                   openHandler := some s.nonce
                   openCloseHandler := some s.nonce
                   ws := { s.ws with
                     openListeners := s.ws.openListeners ++ [.drain s.nonce]
                     closeListeners := s.ws.closeListeners ++ [.drain s.nonce] } } := by
        simp [sendImpl, hrs, hqv, addOpen, addClose]
      rw [heq]
      rw [hoh] at hopen
      rw [hoch] at hclose
      refine ⟨⟨hmsg, hcwo, hcwc, rfl, hpair, fun hx => by simp at hx, ?_, b, ?_⟩, ?_⟩
      · have h1 : (s.ws.openListeners ++ [LTag.drain s.nonce]).Perm
            (optL s.closeWsOpenHandler ++ [LTag.drain s.nonce]) := by
          apply List.Perm.append_right
          simpa [drainL] using hopen
        refine h1.trans ?_
        simpa [drainL] using List.perm_append_comm
      · have h1 : (s.ws.closeListeners ++ [LTag.drain s.nonce]).Perm
            ((cond b [LTag.streamClose] [] ++ optL s.closeWsCloseHandler) ++
              [LTag.drain s.nonce]) := by
          apply List.Perm.append_right
          simpa [drainL] using hclose
        refine h1.trans ?_
        simp only [List.append_assoc, drainL, optL]
        apply List.Perm.append_left
        exact List.perm_append_comm
      · intro hd
        obtain ⟨hd1, hd2⟩ := hdest hd
        refine ⟨hd1, ?_⟩
        simp only [List.mem_append]
        push_neg
        exact ⟨hd2, by simp⟩
  · have heq : sendImpl j cb s = emitEv (.wsSend j cb) s := by
      simp [sendImpl, hrs]
    rw [heq]
    exact invL_emitEv _ ⟨⟨hmsg, hcwo, hcwc, hoo, hpair, hq, hopen, b, hclose⟩, hdest⟩
  · have heq : sendImpl j cb s = emitEv (.writeCbCalled cb (some closedError)) s := by
      simp [sendImpl, hrs]
    rw [heq]
    exact invL_emitEv _ ⟨⟨hmsg, hcwo, hcwc, hoo, hpair, hq, hopen, b, hclose⟩, hdest⟩
  · have heq : sendImpl j cb s = emitEv (.writeCbCalled cb (some closedError)) s := by
      simp [sendImpl, hrs]
    rw [heq]
    exact invL_emitEv _ ⟨⟨hmsg, hcwo, hcwc, hoo, hpair, hq, hopen, b, hclose⟩, hdest⟩
  · have heq : sendImpl j cb s = emitEv (.writeCbCalled cb (some closedError)) s := by
      simp [sendImpl, hrs]
    rw [heq]
    exact invL_emitEv _ ⟨⟨hmsg, hcwo, hcwc, hoo, hpair, hq, hopen, b, hclose⟩, hdest⟩

theorem invL_foldl {α : Type} (g : Engine → α → Engine)
    (hg : ∀ (a : α) (s : Engine), InvL s → InvL (g s a)) :
    ∀ (l : List α) (s : Engine), InvL s → InvL (l.foldl g s) := by
  intro l
  induction l with
  | nil => intro s h; exact h
  | cons a r ih => intro s h; exact ih (g s a) (hg a s h)

theorem invL_processQueue {s : Engine} (h : InvL s) : InvL (processQueue s) := by
  have h2 := invL_detachQueueHandlers h trivial
  cases hqv : (detachQueueHandlers s).pendingQueue with
  | none =>
    have heq : processQueue s = detachQueueHandlers s := by
      simp [processQueue, hqv]
    rw [heq]
    exact h2
  | some q =>
    have heq : processQueue s =
        q.foldl (fun acc (it : String × Nat) => sendImpl it.1 it.2 acc)
          { detachQueueHandlers s with pendingQueue := none } := by
      simp [processQueue, hqv]
    rw [heq]
    apply invL_foldl _ (fun a s hs => invL_sendImpl a.1 a.2 hs)
    obtain ⟨⟨hmsg, hcwo, hcwc, hoo, hpair, _, hopen, b, hclose⟩, hdest⟩ := h2
    exact ⟨⟨hmsg, hcwo, hcwc, hoo, hpair,
      fun _ => (detachQueueHandlers_fields s).1, hopen, b, hclose⟩, hdest⟩

theorem invL_writeCtrSet {s : Engine} (x : Nat) (h : InvL s) :
    InvL { s with writeCtr := x } := by
  obtain ⟨⟨hmsg, hcwo, hcwc, hoo, hpair, hq, hopen, b, hclose⟩, hdest⟩ := h
  exact ⟨⟨hmsg, hcwo, hcwc, hoo, hpair, hq, hopen, b, hclose⟩, hdest⟩

theorem invL_writeImpl {s : Engine} (o : WriteOutcome) (h : InvL s) :
    InvL (writeImpl o s) := by
  cases o with
  | threwW e => exact invL_emitEv _ (invL_writeCtrSet _ h)
  | nonStringW => exact invL_emitEv _ (invL_writeCtrSet _ h)
  | okW json => exact invL_sendImpl _ _ (invL_writeCtrSet _ h)

theorem invL_doFinal {s : Engine} (h : InvL s) : InvL (doFinal s) := by
  apply invL_closeWebSocket
  obtain ⟨⟨hmsg, hcwo, hcwc, hoo, hpair, hq, hopen, b, hclose⟩, hdest⟩ := h
  exact ⟨⟨hmsg, hcwo, hcwc, hoo, hpair, hq, hopen, b, hclose⟩, hdest⟩

theorem invL_messageHandlerRun {s : Engine} (o : MsgOutcome) (h : InvL s) :
    InvL (messageHandlerRun o s) := by
  cases o with
  | threwM e => exact invL_doDestroy _ h
  | okM d isNull =>
    cases isNull with
    | true => exact invL_doDestroy _ h
    | false => exact invL_emitEv _ h

theorem invL_runMsgListener {s : Engine} (o : MsgOutcome) (t : LTag) (h : InvL s) :
    InvL (runMsgListener o s t) := by
  cases t <;> first
    | exact invL_messageHandlerRun o h
    | exact h

theorem invL_fireMessage {s : Engine} (o : MsgOutcome) (h : InvL s) :
    InvL (fireMessage o s) :=
  invL_foldl _ (fun a s hs => invL_runMsgListener o a hs) s.ws.msgListeners s h

theorem invL_runCloseListener {s : Engine} (t : LTag) (h : InvL s) :
    InvL (runCloseListener s t) := by
  cases t with
  | streamMsg => exact h
  | streamClose =>
    by_cases he : s.ending
    · simpa [runCloseListener, he] using h
    · have heq : runCloseListener s .streamClose = doDestroy none s := by
        simp [runCloseListener, he]
      rw [heq]
      exact invL_doDestroy _ h
  | drain n => exact invL_processQueue h
  | closeWs n c r k =>
    have heq : runCloseListener s (.closeWs n c r k) =
        closeWebSocket c r k (cleanupCloseWs s) := rfl
    rw [heq]
    exact invL_closeWebSocket _ _ _ (invL_cleanup h)

theorem invL_setRS {s : Engine} (n : Nat) (h : InvL s) : InvL (setRS n s) := by
  obtain ⟨⟨hmsg, hcwo, hcwc, hoo, hpair, hq, hopen, b, hclose⟩, hdest⟩ := h
  exact ⟨⟨hmsg, hcwo, hcwc, hoo, hpair, hq, hopen, b, hclose⟩, hdest⟩

theorem invL_fireClose {s : Engine} (h : InvL s) : InvL (fireClose s) :=
  invL_foldl _ (fun a s hs => invL_runCloseListener a hs) s.ws.closeListeners
    (setRS 3 s) (invL_setRS 3 h)

theorem invL_runOpenListener {s : Engine} (t : LTag) (h : InvL s) :
    InvL (runOpenListener s t) := by
  cases t with
  | streamMsg => exact h
  | streamClose => exact h
  | drain n => exact invL_processQueue h
  | closeWs n c r k =>
    have heq : runOpenListener s (.closeWs n c r k) =
        closeWebSocket c r k (cleanupCloseWs s) := rfl
    rw [heq]
    exact invL_closeWebSocket _ _ _ (invL_cleanup h)

theorem invL_fireOpen {s : Engine} (h : InvL s) : InvL (fireOpen s) :=
  invL_foldl _ (fun a s hs => invL_runOpenListener a hs) s.ws.openListeners
    (setRS 1 s) (invL_setRS 1 h)

theorem invL_emittedSet {s : Engine} (x : Bool) (h : InvL s) :
    InvL { s with emittedClose := x } := by
  obtain ⟨⟨hmsg, hcwo, hcwc, hoo, hpair, hq, hopen, b, hclose⟩, hdest⟩ := h
  exact ⟨⟨hmsg, hcwo, hcwc, hoo, hpair, hq, hopen, b, hclose⟩, hdest⟩

theorem invL_runTickTask {s : Engine} (t : TickTask) (h : InvL s) :
    InvL (runTickTask t s) := by
  cases t with
  | closedTick k =>
    by_cases he : (emitEv (.shutdownCb k none) s).emittedClose
    · simpa [runTickTask, he] using invL_emitEv _ h
    · have heq : runTickTask (.closedTick k) s =
          emitEv .emitClose
            { (emitEv (.shutdownCb k none) s) with emittedClose := true } := by
        simp [runTickTask, he]
      rw [heq]
      exact invL_emitEv _ (invL_emittedSet _ (invL_emitEv _ h))
  | unexpectedTick k rs => exact invL_emitEv _ h

theorem invL_step {s : Engine} (c : Cmd) (h : InvL s) : InvL (step s c) := by
  cases c with
  | write o =>
    by_cases hd : s.destroyed
    · simpa [step, hd] using h
    · have heq : step s (.write o) = writeImpl o s := by simp [step, hd]
      rw [heq]
      exact invL_writeImpl o h
  | message o => exact invL_fireMessage o h
  | endCall =>
    by_cases hd : s.ended || s.destroyed
    · simpa [step, hd] using h
    · have heq : step s .endCall = doFinal { s with ended := true } := by
        simp [step, hd]
      rw [heq]
      apply invL_doFinal
      obtain ⟨⟨hmsg, hcwo, hcwc, hoo, hpair, hq, hopen, b, hclose⟩, hdest⟩ := h
      exact ⟨⟨hmsg, hcwo, hcwc, hoo, hpair, hq, hopen, b, hclose⟩, hdest⟩
  | destroyCall e => exact invL_doDestroy e h
  | fireOpenC => exact invL_fireOpen h
  | fireCloseC => exact invL_fireClose h
  | tick =>
    cases ht : s.ticks with
    | nil => simpa [step, ht] using h
    | cons t rest =>
      have heq : step s .tick = runTickTask t { s with ticks := rest } := by
        simp [step, ht]
      rw [heq]
      apply invL_runTickTask
      obtain ⟨⟨hmsg, hcwo, hcwc, hoo, hpair, hq, hopen, b, hclose⟩, hdest⟩ := h
      exact ⟨⟨hmsg, hcwo, hcwc, hoo, hpair, hq, hopen, b, hclose⟩, hdest⟩

theorem invL_init (rs : Nat) : InvL (init rs) := by
  refine ⟨⟨Or.inr rfl, trivial, trivial, rfl, Or.inl rfl, fun _ => rfl, ?_, true, ?_⟩, ?_⟩
  · simp [init, drainL, optL]
  · simp [init, drainL, optL]
  · intro hd
    simp [init] at hd

theorem invL_run (rs : Nat) (cmds : List Cmd) : InvL (run rs cmds) := by
  unfold run
  have : ∀ (l : List Cmd) (s : Engine), InvL s → InvL (l.foldl step s) := by
    intro l
    induction l with
    | nil => intro s h; exact h
    | cons c r ih => intro s h; exact ih (step s c) (invL_step c h)
  exact this cmds (init rs) (invL_init rs)

theorem cleanup_eq_none_none {s : Engine} (h1 : s.closeWsOpenHandler = none)
    (h2 : s.closeWsCloseHandler = none) : cleanupCloseWs s = s := by
  simp [cleanupCloseWs, h1, h2]

theorem closeWebSocketBody_closed (c : Option Nat) (r : Option String) (k : CbKind)
    {t0 : Engine} (hrs : t0.ws.readyState = 3) :
    closeWebSocketBody c r k t0 =
      pushTick (.closedTick k) (rmClose .streamClose (rmMsg .streamMsg t0)) := by
  simp [closeWebSocketBody, hrs]

theorem sendFold_closed (q : List (String × Nat)) (s : Engine)
    (h : s.ws.readyState = 3) :
    (q.foldl (fun acc (it : String × Nat) => sendImpl it.1 it.2 acc) s).ws = s.ws ∧
    (q.foldl (fun acc (it : String × Nat) => sendImpl it.1 it.2 acc) s).openHandler =
      s.openHandler ∧
    (q.foldl (fun acc (it : String × Nat) => sendImpl it.1 it.2 acc) s).openCloseHandler =
      s.openCloseHandler ∧
    (q.foldl (fun acc (it : String × Nat) => sendImpl it.1 it.2 acc) s).closeWsOpenHandler =
      s.closeWsOpenHandler ∧
    (q.foldl (fun acc (it : String × Nat) => sendImpl it.1 it.2 acc) s).closeWsCloseHandler =
      s.closeWsCloseHandler := by
  induction q generalizing s with
  | nil => exact ⟨rfl, rfl, rfl, rfl, rfl⟩
  | cons a rest ih =>
    rw [List.foldl_cons]
    have hs : sendImpl a.1 a.2 s = emitEv (.writeCbCalled a.2 (some closedError)) s := by
      simp [sendImpl, h]
    rw [hs]
    have := ih (emitEv (.writeCbCalled a.2 (some closedError)) s) (by simp [emitEv, h])
    simpa [emitEv] using this

theorem processQueue_fields {s : Engine} {n : Nat} (h1 : s.openHandler = some n)
    (h2 : s.openCloseHandler = some n) (hrs : s.ws.readyState = 3) :
    (processQueue s).ws.msgListeners = s.ws.msgListeners ∧
    (processQueue s).ws.openListeners = s.ws.openListeners.erase (.drain n) ∧
    (processQueue s).ws.closeListeners = s.ws.closeListeners.erase (.drain n) ∧
    (processQueue s).ws.readyState = 3 ∧
    (processQueue s).closeWsOpenHandler = s.closeWsOpenHandler ∧
    (processQueue s).closeWsCloseHandler = s.closeWsCloseHandler ∧
    (processQueue s).openHandler = none ∧
    (processQueue s).openCloseHandler = none := by
  have hd : detachQueueHandlers s =
      rmClose (.drain n) { (rmOpen (.drain n) { s with openHandler := none }) with
        openCloseHandler := none } := by
    simp [detachQueueHandlers, h1, h2, rmOpen]
  cases hq : s.pendingQueue with
  | none =>
    have hqd : (detachQueueHandlers s).pendingQueue = none := by
      rw [(detachQueueHandlers_fields s).2.2.1, hq]
    have heq : processQueue s = detachQueueHandlers s := by
      simp only [processQueue, hqd]
    rw [heq, hd]
    simp [rmOpen, rmClose, hrs]
  | some q =>
    have hqd : (detachQueueHandlers s).pendingQueue = some q := by
      rw [(detachQueueHandlers_fields s).2.2.1, hq]
    have heq : processQueue s =
        q.foldl (fun acc (it : String × Nat) => sendImpl it.1 it.2 acc)
          { detachQueueHandlers s with pendingQueue := none } := by
      simp only [processQueue, hqd]
    rw [heq]
    have hsf := sendFold_closed q { detachQueueHandlers s with pendingQueue := none }
      (by rw [hd]; simpa [rmOpen, rmClose] using hrs)
    rw [hsf.1, hsf.2.1, hsf.2.2.1, hsf.2.2.2.1, hsf.2.2.2.2]
    rw [hd]
    simp [rmOpen, rmClose, hrs]

theorem cleanup_lists (s : Engine) :
    (cleanupCloseWs s).ws.msgListeners = s.ws.msgListeners ∧
    (cleanupCloseWs s).ws.openListeners =
      (match s.closeWsOpenHandler with
       | some t => s.ws.openListeners.erase t
       | none => s.ws.openListeners) ∧
    (cleanupCloseWs s).ws.closeListeners =
      (match s.closeWsCloseHandler with
       | some t => s.ws.closeListeners.erase t
       | none => s.ws.closeListeners) := by
  cases h1 : s.closeWsOpenHandler <;> cases h2 : s.closeWsCloseHandler <;>
    simp [cleanupCloseWs, h1, h2, rmOpen, rmClose]

theorem closeWsAction_lists (c : Option Nat) (r : Option String) (k : CbKind)
    {s : Engine} (hrs : s.ws.readyState = 3) :
    (closeWebSocket c r k s).ws.msgListeners =
      ((cleanupCloseWs s).ws.msgListeners).erase .streamMsg ∧
    (closeWebSocket c r k s).ws.openListeners =
      (cleanupCloseWs s).ws.openListeners ∧
    (closeWebSocket c r k s).ws.closeListeners =
      ((cleanupCloseWs s).ws.closeListeners).erase .streamClose ∧
    (closeWebSocket c r k s).ws.readyState = 3 ∧
    (closeWebSocket c r k s).openHandler = s.openHandler ∧
    (closeWebSocket c r k s).openCloseHandler = s.openCloseHandler := by
  have hrs2 : (cleanupCloseWs s).ws.readyState = 3 := by
    rw [(cleanup_frame s).2.1, hrs]
  unfold closeWebSocket
  rw [closeWebSocketBody_closed c r k hrs2]
  simp [pushTick, rmClose, rmMsg, hrs2, cleanup_frame]

theorem runCloseWs_eq (s : Engine) (a : Nat) (c : Option Nat) (r : Option String)
    (k : CbKind) :
    runCloseListener s (.closeWs a c r k) = closeWebSocket c r k s := by
  show closeWebSocket c r k (cleanupCloseWs s) = _
  unfold closeWebSocket
  rw [cleanup_eq_none_none (cleanup_handlers s).1 (cleanup_handlers s).2]

theorem fireClose_empties {s : Engine} (h : InvL s) (hd : s.destroyed = true) :
    (fireClose s).ws.msgListeners = [] ∧
    (fireClose s).ws.openListeners = [] ∧
    (fireClose s).ws.closeListeners = [] := by
  obtain ⟨⟨hmsg, hcwo, hcwc, hoo, hpair, hq, hopen, b, hclose⟩, hdest⟩ := h
  obtain ⟨hdm, hdsc⟩ := hdest hd
  have hb : b = false := by
    cases b with
    | false => rfl
    | true => exact absurd (hclose.mem_iff.mpr (by simp)) hdsc
  subst hb
  simp only [cond, List.nil_append] at hclose
  cases hoch : s.openCloseHandler with
  | none =>
    have hohn : s.openHandler = none := by rw [hoo, hoch]
    cases hcwcv : s.closeWsCloseHandler with
    | none =>
      have hcwov : s.closeWsOpenHandler = none := by
        rcases hpair with h' | h'
        · exact h'
        · rw [h', hcwcv]
      have hcl : s.ws.closeListeners = [] :=
        List.Perm.eq_nil (by simpa [hoch, hcwcv, drainL, optL] using hclose)
      have hop : s.ws.openListeners = [] :=
        List.Perm.eq_nil (by simpa [hohn, hcwov, drainL, optL] using hopen)
      have heq : fireClose s = setRS 3 s := by
        unfold fireClose
        rw [hcl]
        rfl
      rw [heq]
      exact ⟨by simpa [setRS] using hdm, by simpa [setRS] using hop,
        by simpa [setRS] using hcl⟩
    | some t =>
      rw [hcwcv] at hcwc
      cases t with
      | streamMsg => simp [IsCloseWsOpt] at hcwc
      | streamClose => simp [IsCloseWsOpt] at hcwc
      | drain m => simp [IsCloseWsOpt] at hcwc
      | closeWs a c2 r2 k2 =>
        have hcl : s.ws.closeListeners = [LTag.closeWs a c2 r2 k2] :=
          List.Perm.eq_singleton
            (by simpa [hoch, hcwcv, drainL, optL] using hclose)
        have heq : fireClose s =
            runCloseListener (setRS 3 s) (.closeWs a c2 r2 k2) := by
          unfold fireClose
          rw [hcl]
          rfl
        rw [heq, runCloseWs_eq]
        have hact := closeWsAction_lists c2 r2 k2 (s := setRS 3 s) rfl
        obtain ⟨hm2, ho2, hc2, _, _, _⟩ := hact
        obtain ⟨hcm, hco, hcc⟩ := cleanup_lists (setRS 3 s)
        refine ⟨?_, ?_, ?_⟩
        · rw [hm2, hcm]
          simp [setRS, hdm]
        · rw [ho2, hco]
          show (match s.closeWsOpenHandler with
            | some t => (s.ws.openListeners).erase t
            | none => s.ws.openListeners) = []
          rcases hpair with h' | h'
          · rw [h']
            exact List.Perm.eq_nil (by simpa [hohn, h', drainL, optL] using hopen)
          · rw [h', hcwcv]
            have hop : s.ws.openListeners = [LTag.closeWs a c2 r2 k2] :=
              List.Perm.eq_singleton
                (by simpa [hohn, h', hcwcv, drainL, optL] using hopen)
            simp [hop]
        · rw [hc2, hcc]
          show ((match (setRS 3 s).closeWsCloseHandler with
            | some t => ((setRS 3 s).ws.closeListeners).erase t
            | none => (setRS 3 s).ws.closeListeners).erase LTag.streamClose) = []
          have : (setRS 3 s).closeWsCloseHandler = some (.closeWs a c2 r2 k2) := hcwcv
          rw [this]
          show ((s.ws.closeListeners).erase (.closeWs a c2 r2 k2)).erase
            LTag.streamClose = []
          simp [hcl]
  | some n =>
    have hohn : s.openHandler = some n := by rw [hoo, hoch]
    cases hcwcv : s.closeWsCloseHandler with
    | none =>
      have hcwov : s.closeWsOpenHandler = none := by
        rcases hpair with h' | h'
        · exact h'
        · rw [h', hcwcv]
      have hcl : s.ws.closeListeners = [LTag.drain n] :=
        List.Perm.eq_singleton (by simpa [hoch, hcwcv, drainL, optL] using hclose)
      have heq : fireClose s = processQueue (setRS 3 s) := by
        unfold fireClose
        rw [hcl]
        rfl
      rw [heq]
      have hpf := processQueue_fields (s := setRS 3 s) (n := n) hohn hoch rfl
      refine ⟨?_, ?_, ?_⟩
      · rw [hpf.1]
        simpa [setRS] using hdm
      · rw [hpf.2.1]
        show (s.ws.openListeners).erase (.drain n) = []
        have hop : s.ws.openListeners = [LTag.drain n] :=
          List.Perm.eq_singleton
            (by simpa [hohn, hcwov, drainL, optL] using hopen)
        simp [hop]
      · rw [hpf.2.2.1]
        show (s.ws.closeListeners).erase (.drain n) = []
        simp [hcl]
    | some t =>
      rw [hcwcv] at hcwc
      cases t with
      | streamMsg => simp [IsCloseWsOpt] at hcwc
      | streamClose => simp [IsCloseWsOpt] at hcwc
      | drain m => simp [IsCloseWsOpt] at hcwc
      | closeWs a c2 r2 k2 =>
        have hclp : s.ws.closeListeners.Perm [LTag.drain n, LTag.closeWs a c2 r2 k2] := by
          simpa [hoch, hcwcv, drainL, optL] using hclose
        have hopp : s.ws.openListeners.Perm
            ([LTag.drain n] ++ optL s.closeWsOpenHandler) := by
          simpa [hohn, drainL] using hopen
        rcases perm_pair_cases _ _ _ hclp with hcl | hcl
        · -- close listeners in order [drain, closeWs]
          have heq : fireClose s =
              runCloseListener (processQueue (setRS 3 s)) (.closeWs a c2 r2 k2) := by
            unfold fireClose
            rw [hcl]
            rfl
          rw [heq, runCloseWs_eq]
          have hpf := processQueue_fields (s := setRS 3 s) (n := n) hohn hoch rfl
          set s1 := processQueue (setRS 3 s) with hs1
          have hm1 : s1.ws.msgListeners = [] := by
            rw [hpf.1]
            simpa [setRS] using hdm
          have ho1 : s1.ws.openListeners.Perm (optL s.closeWsOpenHandler) := by
            rw [hpf.2.1]
            show ((s.ws.openListeners).erase (.drain n)).Perm _
            have := hopp.erase (.drain n)
            simpa using this
          have hc1 : s1.ws.closeListeners = [LTag.closeWs a c2 r2 k2] := by
            rw [hpf.2.2.1]
            show (s.ws.closeListeners).erase (.drain n) = _
            simp [hcl]
          have hcwo1 : s1.closeWsOpenHandler = s.closeWsOpenHandler := by
            rw [hpf.2.2.2.2.1]
            exact rfl
          have hcwc1 : s1.closeWsCloseHandler = some (.closeWs a c2 r2 k2) := by
            rw [hpf.2.2.2.2.2.1]
            exact hcwcv
          have hact := closeWsAction_lists c2 r2 k2 (s := s1) hpf.2.2.2.1
          obtain ⟨hm2, ho2, hc2, _, _, _⟩ := hact
          obtain ⟨hcm, hco, hcc⟩ := cleanup_lists s1
          refine ⟨?_, ?_, ?_⟩
          · rw [hm2, hcm, hm1]
            rfl
          · rw [ho2, hco, hcwo1]
            rcases hpair with h' | h'
            · rw [h']
              rw [h'] at ho1
              exact List.Perm.eq_nil (by simpa [optL] using ho1)
            · rw [h', hcwcv]
              rw [h', hcwcv] at ho1
              have : s1.ws.openListeners = [LTag.closeWs a c2 r2 k2] :=
                List.Perm.eq_singleton (by simpa [optL] using ho1)
              simp [this]
          · rw [hc2, hcc, hcwc1]
            simp [hc1]
        · -- close listeners in order [closeWs, drain]
          have heq : fireClose s =
              runCloseListener (runCloseListener (setRS 3 s) (.closeWs a c2 r2 k2))
                (.drain n) := by
            unfold fireClose
            rw [hcl]
            rfl
          rw [heq, runCloseWs_eq]
          have hact := closeWsAction_lists c2 r2 k2 (s := setRS 3 s) rfl
          obtain ⟨hm2, ho2, hc2, hrs2, hoh2, hoch2⟩ := hact
          obtain ⟨hcm, hco, hcc⟩ := cleanup_lists (setRS 3 s)
          set s1 := closeWebSocket c2 r2 k2 (setRS 3 s) with hs1
          have hm1 : s1.ws.msgListeners = [] := by
            rw [hm2, hcm]
            simp [setRS, hdm]
          have ho1 : s1.ws.openListeners.Perm [LTag.drain n] := by
            rw [ho2, hco]
            show (match (setRS 3 s).closeWsOpenHandler with
              | some t => ((setRS 3 s).ws.openListeners).erase t
              | none => (setRS 3 s).ws.openListeners).Perm _
            rcases hpair with h' | h'
            · rw [show (setRS 3 s).closeWsOpenHandler = none from h']
              show s.ws.openListeners.Perm _
              simpa [optL, h'] using hopp
            · rw [show (setRS 3 s).closeWsOpenHandler =
                some (.closeWs a c2 r2 k2) from h'.trans hcwcv]
              show ((s.ws.openListeners).erase (.closeWs a c2 r2 k2)).Perm _
              rw [h', hcwcv] at hopp
              have := hopp.erase (.closeWs a c2 r2 k2)
              simpa [optL] using this
          have hc1 : s1.ws.closeListeners = [LTag.drain n] := by
            rw [hc2, hcc]
            rw [show (setRS 3 s).closeWsCloseHandler =
              some (.closeWs a c2 r2 k2) from hcwcv]
            show ((s.ws.closeListeners).erase (.closeWs a c2 r2 k2)).erase
              LTag.streamClose = _
            simp [hcl]
          have hoh1 : s1.openHandler = some n := by
            rw [hoh2]
            exact hohn
          have hoch1 : s1.openCloseHandler = some n := by
            rw [hoch2]
            exact hoch
          have hpf := processQueue_fields (s := s1) (n := n) hoh1 hoch1 hrs2
          have hrun : runCloseListener s1 (.drain n) = processQueue s1 := rfl
          rw [hrun]
          refine ⟨?_, ?_, ?_⟩
          · rw [hpf.1, hm1]
          · rw [hpf.2.1]
            have : s1.ws.openListeners = [LTag.drain n] :=
              List.Perm.eq_singleton ho1
            simp [this]
          · rw [hpf.2.2.1, hc1]
            simp

theorem countCloseWs_eq_countP (l : List LTag) :
    countCloseWs l = l.countP (fun t => match t with
      | LTag.closeWs _ _ _ _ => true
      | _ => false) := by
  induction l with
  | nil => rfl
  | cons t r ih => cases t <;> simp [countCloseWs, List.countP_cons, ih]

theorem countCloseWs_perm {l l' : List LTag} (h : l.Perm l') :
    countCloseWs l = countCloseWs l' := by
  rw [countCloseWs_eq_countP, countCloseWs_eq_countP]
  exact h.countP_eq _

theorem countCloseWs_append (a b : List LTag) :
    countCloseWs (a ++ b) = countCloseWs a + countCloseWs b := by
  induction a with
  | nil => simp [countCloseWs]
  | cons t r ih => cases t <;> simp [countCloseWs, ih] <;> omega

theorem countCloseWs_drainL (o : Option Nat) : countCloseWs (drainL o) = 0 := by
  cases o <;> simp [drainL, countCloseWs]

theorem countCloseWs_optL (o : Option LTag) : countCloseWs (optL o) ≤ 1 := by
  cases o with
  | none => simp [optL, countCloseWs]
  | some t => cases t <;> simp [optL, countCloseWs]

theorem countCloseWs_condSC (b : Bool) :
    countCloseWs (cond b [LTag.streamClose] []) = 0 := by
  cases b <;> simp [countCloseWs]

theorem doDestroy_destroyed_true {s : Engine} (e : Option StreamError)
    (hd : s.destroyed = true ∨ s.destroyed = false) :
    (doDestroy e s).destroyed = true ∨ (doDestroy e s) = s ∧ s.destroyed = true := by
  by_cases h : s.destroyed
  · right
    exact ⟨by simp [doDestroy, h], h⟩
  · left
    have heq : doDestroy e s = destroyImpl e { s with destroyed := true } := by
      simp [doDestroy, h]
    rw [heq, destroyImpl_destroyed]

/-- C3: no listener accumulation on the wrapped connection.  In every
reachable state at most one shutdown-retry listener is attached to `'open'`
and at most one to `'close'` (a fresh shutdown attempt always detaches the
previous attempt's listeners before attaching its own); and after the stream
is destroyed and the transport's terminating `'close'` event fires — from any
reachable state, i.e. after any number of interleaved write/end/destroy/open/
close/message cycles — the connection's `'message'`, `'open'` and `'close'`
listener lists are exactly as before the stream was created: empty. -/
theorem claim_C3 :
    (∀ (rs : Nat) (cmds : List Cmd),
      countCloseWs (run rs cmds).ws.openListeners ≤ 1 ∧
      countCloseWs (run rs cmds).ws.closeListeners ≤ 1) ∧
    (∀ (rs : Nat) (cmds : List Cmd),
      (run rs (cmds ++ [.destroyCall none, .fireCloseC])).ws.msgListeners = [] ∧
      (run rs (cmds ++ [.destroyCall none, .fireCloseC])).ws.openListeners = [] ∧
      (run rs (cmds ++ [.destroyCall none, .fireCloseC])).ws.closeListeners = []) := by
  constructor
  · intro rs cmds
    obtain ⟨⟨_, _, _, _, _, _, hopen, b, hclose⟩, _⟩ := invL_run rs cmds
    constructor
    · rw [countCloseWs_perm hopen, countCloseWs_append, countCloseWs_drainL]
      simpa using countCloseWs_optL _
    · rw [countCloseWs_perm hclose, countCloseWs_append, countCloseWs_append,
        countCloseWs_drainL, countCloseWs_condSC]
      simpa using countCloseWs_optL _
  · intro rs cmds
    have hrun : run rs (cmds ++ [.destroyCall none, .fireCloseC]) =
        step (step (run rs cmds) (.destroyCall none)) .fireCloseC := by
      unfold run
      rw [List.foldl_append]
      rfl
    rw [hrun]
    have h1 : InvL (run rs cmds) := invL_run rs cmds
    have h2 : InvL (step (run rs cmds) (.destroyCall none)) :=
      invL_doDestroy none h1
    have hd2 : (step (run rs cmds) (.destroyCall none)).destroyed = true := by
      show (doDestroy none (run rs cmds)).destroyed = true
      rcases doDestroy_destroyed_true none (by cases (run rs cmds).destroyed <;> simp)
        with h | ⟨heq, hdd⟩
      · exact h
      · rw [heq]
        exact hdd
    have hstep : step (step (run rs cmds) (.destroyCall none)) .fireCloseC =
        fireClose (step (run rs cmds) (.destroyCall none)) := rfl
    rw [hstep]
    exact fireClose_empties h2 hd2

end WsStream
